import Mathlib

/-!
Verification of the breeze.js `EntityManager` core (src/a50_entityManager.js)
against its natural-language specification.

The JavaScript source is shallowly embedded: each JS function that a claim
depends on is translated into an executable Lean definition, keeping the
source's branch structure and names.  Collaborator code that lives in other
files of the repository (EntityAspect, EntityGroup, KeyGenerator) is modelled
from the specification's words; such definitions carry a doc comment starting
with `Modelled from the spec:`.
-/

namespace Breeze

/-- EntityState enum `{Detached, Added, Unchanged, Modified, Deleted}`. -/
inductive EntityState where
  | Detached
  | Added
  | Unchanged
  | Modified
  | Deleted
deriving DecidableEq, Repr

/-- Mirrors `entityState.isAdded()`. -/
def EntityState.isAdded : EntityState → Bool
  | .Added => true
  | _ => false

/-- Mirrors `entityState.isUnchanged()`. -/
def EntityState.isUnchanged : EntityState → Bool
  | .Unchanged => true
  | _ => false

/-- Mirrors `entityState.isModified()`. -/
def EntityState.isModified : EntityState → Bool
  | .Modified => true
  | _ => false

/-- Mirrors `entityState.isDeleted()`. -/
def EntityState.isDeleted : EntityState → Bool
  | .Deleted => true
  | _ => false

/-- Mirrors `entityState.isDetached()`. -/
def EntityState.isDetached : EntityState → Bool
  | .Detached => true
  | _ => false

/-- Mirrors `entityState.isAddedModifiedOrDeleted()`: the "changed" states. -/
def EntityState.isAddedModifiedOrDeleted : EntityState → Bool
  | .Added => true
  | .Modified => true
  | .Deleted => true
  | _ => false

/-- MergeStrategy enum `{Disallowed, OverwriteChanges, PreserveChanges, SkipMerge}`. -/
inductive MergeStrategy where
  | Disallowed
  | OverwriteChanges
  | PreserveChanges
  | SkipMerge
deriving DecidableEq, Repr

/-- Association-list lookup (first matching key), used to model JS object maps. -/
def alookup {κ α : Type} [DecidableEq κ] (k : κ) : List (κ × α) → Option α
  | [] => none
  | (k1, v) :: t => if k1 = k then some v else alookup k t

/-- Association-list update: replaces the first binding of `k`, or appends one,
    modelling JS object property assignment. -/
def aupdate {κ α : Type} [DecidableEq κ] (k : κ) (v : α) : List (κ × α) → List (κ × α)
  | [] => [(k, v)]
  | (k1, v1) :: t => if k1 = k then (k, v) :: t else (k1, v1) :: aupdate k v t

end Breeze

namespace Breeze.MgrModel

/-!
Model A: the manager as a state machine over attached entities, for the
`hasChanges` cache invariant (C1) and the `rejectChanges` frame claim (C10).

Entities are identified by `Nat` ids.  `entities` maps each attached entity id
to its `EntityState`; a detached entity is simply absent.  `hasChangesFlag` is
the manager's `_hasChanges` cached boolean, and `events` records published
notifications in order (entityChanged / hasChangesChanged payloads, abstracted
to their action kind and entity id).  Relationship linking is out of scope for
these two claims, so entities carry no navigation properties.
-/

open Breeze

/-- Notification payloads published by the manager, abstracted to the action
    kind and the entity id (null-entity events carry no id). -/
inductive MgrEvent where
  | attachEvt (id : Nat)
  | detachEvt (id : Nat)
  | stateChangeEvt (id : Nat)
  | acceptChangesEvt (id : Nat)
  | rejectChangesEvt (id : Nat)
  | hasChangesChangedEvt (b : Bool)
deriving DecidableEq, Repr

/-- Manager state: attached entities (id to EntityState), the cached
    `_hasChanges` flag and the list of published events. -/
structure Mgr where
  entities : List (Nat × EntityState)
  hasChangesFlag : Bool
  events : List MgrEvent
deriving DecidableEq, Repr

/-- A fresh manager (after the constructor's `clear()`). -/
def initMgr : Mgr := { entities := [], hasChangesFlag := false, events := [] }

/-- Recomputed answer of `_hasChangesCore()` over all entity groups: some
    cached entity is Added, Modified or Deleted.  (The per-group
    `eg.hasChanges()` lives in the EntityGroup file; per the spec it reports
    whether the group holds an entity in a changed state.) -/
def hasChangesCore (m : Mgr) : Bool :=
  m.entities.any (fun p => p.2.isAddedModifiedOrDeleted)

/-- Embeds `_setHasChanges(hasChanges)` (src 1552-1560): `null` means
    recompute via `_hasChangesCore`; publishes `hasChangesChanged` when the
    flag flips. -/
def setHasChanges (m : Mgr) (b : Option Bool) : Mgr :=
  let b1 := b.getD (hasChangesCore m)
  { m with hasChangesFlag := b1,
           events := if b1 ≠ m.hasChangesFlag
                     then m.events ++ [MgrEvent.hasChangesChangedEvt b1]
                     else m.events }

/-- Embeds `_notifyStateChange(entity, needsSave)` (src 1528-1550) outside a
    loading scope (`isLoading` false, as holds for the user-level operations
    of claim C1): on `needsSave` set the flag to true if it was false;
    otherwise recompute it if it was true; then publish the
    EntityStateChange notification. -/
def notifyStateChange (m : Mgr) (id : Nat) (needsSave : Bool) : Mgr :=
  let m1 :=
    if needsSave then
      if !m.hasChangesFlag then setHasChanges m (some true) else m
    else
      if m.hasChangesFlag then setHasChanges m none else m
  { m1 with events := m1.events ++ [MgrEvent.stateChangeEvt id] }

/-- Entity states an entity can be attached with (spec 4.4: attach assigns
    one of Added, Unchanged, Modified, Deleted). -/
inductive AttachState where
  | asAdded
  | asUnchanged
  | asModified
  | asDeleted
deriving DecidableEq, Repr

/-- The EntityState assigned by an attach. -/
def AttachState.toEntityState : AttachState → EntityState
  | .asAdded => .Added
  | .asUnchanged => .Unchanged
  | .asModified => .Modified
  | .asDeleted => .Deleted

/-- Sets the state of every entry of `id` (the identity map holds at most one). -/
def setStateAll (id : Nat) (s : EntityState) (l : List (Nat × EntityState)) :
    List (Nat × EntityState) :=
  l.map (fun p => if p.1 = id then (id, s) else p)

/-- Removes every entry of `id` from the entity list. -/
def removeAll (id : Nat) (l : List (Nat × EntityState)) : List (Nat × EntityState) :=
  l.filter (fun p => p.1 ≠ id)

/-- Embeds `attachEntity` (src 587-640) for an entity of this manager's type
    space with no navigation properties, with the default Disallowed merge
    strategy and fresh ids (the EntityGroup insert for a key not in the index
    is modelled from the spec: index the entity and assign it the state).
    An entity already belonging to this manager is returned as-is (src 607).
    After the group insert, a non-Unchanged state triggers
    `_notifyStateChange(e, true)` and the Attach event is published. -/
def attachOp (m : Mgr) (id : Nat) (s : AttachState) : Mgr :=
  if (alookup id m.entities).isSome then m
  else
    let st := s.toEntityState
    let m1 := { m with entities := m.entities ++ [(id, st)] }
    let m2 := if !st.isUnchanged then notifyStateChange m1 id true else m1
    { m2 with events := m2.events ++ [MgrEvent.attachEvt id] }

/-- Modelled from the spec: the property-write interceptor of EntityAspect
    (not under src/): "any property write while Unchanged → Modified",
    promoting the state and notifying the manager with needsSave true;
    writes in other states do not change the entity state. -/
def editOp (m : Mgr) (id : Nat) : Mgr :=
  match alookup id m.entities with
  | some EntityState.Unchanged =>
      notifyStateChange { m with entities := setStateAll id .Modified m.entities } id true
  | _ => m

/-- Modelled from the spec: `EntityAspect.setDetached` (not under src/):
    remove the entity from its group, set it Detached, clear the manager
    reference, notify the manager with needsSave false and publish Detach. -/
def setDetachedOp (m : Mgr) (id : Nat) : Mgr :=
  let m1 := { m with entities := removeAll id m.entities }
  let m2 := notifyStateChange m1 id false
  { m2 with events := m2.events ++ [MgrEvent.detachEvt id] }

/-- Embeds `detachEntity` (src 655-667): an entity whose aspect does not
    reference this manager (here: any id not attached, since detach clears
    the manager reference per spec 3) throws; otherwise
    `aspect.setDetached()` runs. -/
def detachOp (m : Mgr) (id : Nat) : Except String Mgr :=
  match alookup id m.entities with
  | none => Except.error "This entity does not belong to this EntityManager."
  | some _ => Except.ok (setDetachedOp m id)

/-- Modelled from the spec: `EntityAspect.acceptChanges` (not under src/):
    a Deleted entity is detached from the manager, any other changed entity
    becomes Unchanged; either way the manager is notified with needsSave
    false and an AcceptChanges event is published. -/
def acceptOneAspect (m : Mgr) (id : Nat) : Mgr :=
  match alookup id m.entities with
  | some EntityState.Deleted =>
      let m1 := setDetachedOp m id
      { m1 with events := m1.events ++ [MgrEvent.acceptChangesEvt id] }
  | some _ =>
      let m1 := { m with entities := setStateAll id .Unchanged m.entities }
      let m2 := notifyStateChange m1 id false
      { m2 with events := m2.events ++ [MgrEvent.acceptChangesEvt id] }
  | none => m

/-- The ids of the changed entities, as `getChanges()` (src 1455-1458,
    1699-1715) collects them. -/
def changedIds (m : Mgr) : List Nat :=
  (m.entities.filter (fun p => p.2.isAddedModifiedOrDeleted)).map (fun p => p.1)

/-- Embeds manager-level `acceptChanges` (src 310-316): collect the changes
    and run `aspect.acceptChanges` on each. -/
def acceptChangesOp (m : Mgr) : Mgr :=
  (changedIds m).foldl acceptOneAspect m

/-- Modelled from the spec: `EntityAspect.rejectChanges` (not under src/):
    an Added entity is detached (via `entityManager.detachEntity`), any other
    changed entity reverts to Unchanged; the manager is notified with
    needsSave false and a RejectChanges event is published. -/
def rejectOneAspect (m : Mgr) (id : Nat) : Mgr :=
  match alookup id m.entities with
  | some EntityState.Added =>
      let m1 := setDetachedOp m id
      { m1 with events := m1.events ++ [MgrEvent.rejectChangesEvt id] }
  | some _ =>
      let m1 := { m with entities := setStateAll id .Unchanged m.entities }
      let m2 := notifyStateChange m1 id false
      { m2 with events := m2.events ++ [MgrEvent.rejectChangesEvt id] }
  | none => m

/-- Embeds manager-level `rejectChanges` (src 1471-1484): if the cached flag
    is false, return the empty array at once; otherwise collect the changes,
    force the cached flag to false (so the per-aspect rejections skip
    recomputation), reject each aspect, publish `hasChangesChanged` false and
    return the collected entities. -/
def rejectChangesOp (m : Mgr) : List Nat × Mgr :=
  if !m.hasChangesFlag then ([], m)
  else
    let ids := changedIds m
    let m1 := { m with hasChangesFlag := false }
    let m2 := ids.foldl rejectOneAspect m1
    (ids, { m2 with events := m2.events ++ [MgrEvent.hasChangesChangedEvt false] })

/-- Embeds the public `hasChanges()` (src 1399-1403) with its `entityTypes`
    argument omitted: it reports the cached `_hasChanges` flag. -/
def hasChangesPublic (m : Mgr) : Bool := m.hasChangesFlag

/-- The user-level operations of claim C1. -/
inductive MgrOp where
  | opAttach (id : Nat) (s : AttachState)
  | opEdit (id : Nat)
  | opAccept
  | opReject
  | opDetach (id : Nat)
deriving DecidableEq, Repr

/-- Applies one operation; a thrown error (detach of a foreign entity) leaves
    the manager unchanged, as the exception propagates before any mutation. -/
def applyOp (m : Mgr) : MgrOp → Mgr
  | .opAttach id s => attachOp m id s
  | .opEdit id => editOp m id
  | .opAccept => acceptChangesOp m
  | .opReject => (rejectChangesOp m).2
  | .opDetach id =>
      match detachOp m id with
      | .ok m1 => m1
      | .error _ => m

/-- Runs a sequence of operations from a fresh manager. -/
def runOps (ops : List MgrOp) : Mgr := ops.foldl applyOp initMgr

/-- The C1 invariant: the cached flag agrees with the recomputed answer. -/
def FlagInv (m : Mgr) : Prop := m.hasChangesFlag = hasChangesCore m

end Breeze.MgrModel

namespace Breeze.AttachModel

/-!
Model B: attach and detach with entity identity, for claims C2 and C9.

Entities live on a heap (`Nat` id to record) and carry an optional
`EntityAspect`; the manager owns a group (the identity map, a list of indexed
entity ids) and the key generator.  Published notifications are not part of
this model's state (they are modelled in `Breeze.MgrModel`); the no-op
statements below are about the cache state.  Entities of this single-type
model have no navigation properties, so `attachRelatedEntities`
(src 2075-2088) and `_linkRelatedEntities` traverse empty lists and are
omitted; likewise `_inProcessEntity` is set and cleared around that no-op
(src 622-629), leaving the aspect unchanged, so the transient write is not
modelled.
-/

open Breeze

/-- Modelled from the spec: the `EntityAspect` record (not under src/) —
    per-entity state, owning-manager back-reference, reentrancy guard and
    temp-key flag. -/
structure Aspect where
  entityManager : Option Nat
  inProcessEntity : Option Nat
  entityState : EntityState
  hasTempKey : Bool
deriving DecidableEq, Repr

/-- Modelled from the spec: a freshly constructed aspect — detached, owned by
    no manager (src 601-604 constructs one when an entity made via `new` is
    attached). -/
def newAspect : Aspect :=
  { entityManager := none, inProcessEntity := none,
    entityState := EntityState.Detached, hasTempKey := false }

/-- An entity record: the metadata store its type belongs to, its single key
    property (`none` = still the default, unset value), its data property
    values and its optional aspect. -/
structure Entity where
  storeId : Nat
  keyValue : Option Nat
  values : List (String × Int)
  aspect : Option Aspect
deriving DecidableEq, Repr

/-- The manager: its identity, metadata store, whether the entity type has an
    auto-generated key, its single EntityGroup (indexed entity ids) and the
    key generator's counter. -/
structure Manager where
  mid : Nat
  storeId : Nat
  autoKey : Bool
  group : List Nat
  nextTempId : Nat
deriving DecidableEq, Repr

/-- The world: the entity heap plus the manager under test. -/
structure World where
  heap : List (Nat × Entity)
  mgr : Manager
deriving DecidableEq, Repr

/-- Embeds `checkEntityKey` (src 2031-2049) for a single-property key: an
    Added entity whose key still holds its default gets a temporary key when
    the type auto-generates keys (via `generateTempKeyValue`, src 1358-1367,
    whose KeyGenerator is modelled from the spec as a counter), and is
    rejected otherwise (with a single key property, a default key is fully
    default). -/
def checkEntityKey (w : World) (eid : Nat) (e : Entity) : Except String (World × Entity) :=
  match e.keyValue with
  | some _ => Except.ok (w, e)
  | none =>
      if w.mgr.autoKey then
        let v := w.mgr.nextTempId
        let e1 := { e with keyValue := some v,
                           aspect := e.aspect.map (fun a => { a with hasTempKey := true }) }
        Except.ok ({ heap := aupdate eid e1 w.heap,
                     mgr := { w.mgr with nextTempId := v + 1 } }, e1)
      else
        Except.error "Cannot attach an object to an EntityManager without first setting its key or setting its entityType AutoGeneratedKeyType property to something other than None"

/-- The first indexed entity whose key equals `k`, with its id (the
    EntityGroup key index). -/
def findCollision (w : World) (k : Option Nat) : Option (Nat × Entity) :=
  (w.mgr.group.filterMap (fun tid => (alookup tid w.heap).map (fun t => (tid, t)))).find?
    (fun p => p.2.keyValue == k)

/-- Overwrites the cached target's values and state with the incoming
    entity's (the "overwrite values+state" cell of the spec 4.1 table). -/
def overwriteTarget (w : World) (tid : Nat) (t : Entity) (e : Entity) (s : EntityState) : World :=
  let t1 := { t with values := e.values,
                     aspect := some { (t.aspect.getD newAspect) with entityState := s } }
  { w with heap := aupdate tid t1 w.heap }

/-- Modelled from the spec: `EntityGroup.attachEntity` (not under src/), per
    the spec 4.1 contract and collision table — return the cached instance
    after resolving collisions; with no collision, index the entity, assign
    it the state and the owning manager. -/
def groupAttach (w : World) (eid : Nat) (e : Entity) (s : EntityState) (ms : MergeStrategy) :
    Except String (Nat × World) :=
  match findCollision w e.keyValue with
  | none =>
      let e1 := { e with aspect := some { (e.aspect.getD newAspect) with
                                          entityManager := some w.mgr.mid,
                                          entityState := s } }
      Except.ok (eid, { heap := aupdate eid e1 w.heap,
                        mgr := { w.mgr with group := w.mgr.group ++ [eid] } })
  | some (tid, t) =>
      match ms with
      | MergeStrategy.Disallowed =>
          Except.error "MergeStrategy.Disallowed does not allow attaching an entity when an entity with the same key is already attached"
      | MergeStrategy.SkipMerge => Except.ok (tid, w)
      | MergeStrategy.OverwriteChanges => Except.ok (tid, overwriteTarget w tid t e s)
      | MergeStrategy.PreserveChanges =>
          if (t.aspect.getD newAspect).entityState.isUnchanged then
            Except.ok (tid, overwriteTarget w tid t e s)
          else
            Except.ok (tid, w)

/-- The body of the `__using` loading scope of `attachEntity` (src 616-630):
    key check for Added entities, then the EntityGroup attach. -/
def attachCore (w : World) (eid : Nat) (e : Entity) (s : EntityState) (ms : MergeStrategy) :
    Except String (Nat × World) :=
  match (if s.isAdded then checkEntityKey w eid e else Except.ok (w, e)) with
  | Except.error msg => Except.error msg
  | Except.ok (w1, e1) => groupAttach w1 eid e1 s ms

/-- Embeds `attachEntity` (src 587-640): metadata-store check; in-progress
    reentrancy guard; no-op return for an entity of this manager; error for
    an entity of another manager; aspect creation for a `new`-made entity;
    then the loading-scope attach core. -/
def attachEntity (w : World) (eid : Nat) (s : EntityState) (ms : MergeStrategy) :
    Except String (Nat × World) :=
  match alookup eid w.heap with
  | none => Except.error "entity must be an entity"
  | some e0 =>
      if e0.storeId ≠ w.mgr.storeId then
        Except.error "the MetadataStore associated with this entity does not match this EntityManager MetadataStore"
      else
        match e0.aspect with
        | some a =>
            match a.inProcessEntity with
            | some r => Except.ok (r, w)
            | none =>
                match a.entityManager with
                | some m1 =>
                    if m1 = w.mgr.mid then Except.ok (eid, w)
                    else Except.error "This entity already belongs to another EntityManager"
                | none => attachCore w eid e0 s ms
        | none =>
            let e1 := { e0 with aspect := some newAspect }
            attachCore { w with heap := aupdate eid e1 w.heap } eid e1 s ms

/-- Modelled from the spec: `EntityAspect.setDetached` (not under src/), per
    spec 4.4 and the spec 3 lifecycle: an entity in no group is already
    detached (returns false); otherwise it is removed from its EntityGroup,
    its state set Detached and its manager reference cleared (returns
    true). -/
def setDetached (w : World) (eid : Nat) (e : Entity) (a : Aspect) : Bool × World :=
  if eid ∈ w.mgr.group then
    let e1 := { e with aspect := some { a with entityState := EntityState.Detached,
                                               entityManager := none } }
    (true, { heap := aupdate eid e1 w.heap,
             mgr := { w.mgr with group := w.mgr.group.filter (fun t => t != eid) } })
  else (false, w)

/-- Embeds `detachEntity` (src 655-667): no aspect returns false; an aspect
    whose manager reference is not this manager throws; otherwise
    `aspect.setDetached()` decides. -/
def detachEntity (w : World) (eid : Nat) : Except String (Bool × World) :=
  match alookup eid w.heap with
  | none => Except.error "entity must be an entity"
  | some e =>
      match e.aspect with
      | none => Except.ok (false, w)
      | some a =>
          if a.entityManager ≠ some w.mgr.mid then
            Except.error "This entity does not belong to this EntityManager."
          else
            Except.ok (setDetached w eid e a)

end Breeze.AttachModel

namespace Breeze.ImportModel

/-!
Model C: `importEntityGroup` (src 1888-1964) and the temp-key translation
table of `importEntities` (src 476-481), for claims C3 and C8.

The model covers one entity type (a key therefore has no subtypes, so the
subtype walk of `getMappedKey`, src 1969-1975, returns null).  A raw entity
carries its mapped data-property values, its entity state and its
`tempNavPropNames`; the type metadata gives the key property name and the
foreign-key property behind each navigation property
(`np.relatedDataProperties[0].name`, src 1944).
-/

open Breeze

/-- Type metadata: the (single) key property name and the map from navigation
    property name to its foreign-key data property name. -/
structure TypeMeta where
  keyPropName : String
  navFkMap : List (String × String)
deriving DecidableEq, Repr

/-- A raw entity of an import bundle: mapped property values plus the
    `entityAspect` block's state and temp-key nav-prop names. -/
structure RawEntity where
  values : List (String × Nat)
  entityState : EntityState
  tempNavPropNames : List String
deriving DecidableEq, Repr

/-- A cached entity of the destination EntityGroup. -/
structure CachedEntity where
  values : List (String × Nat)
  entityState : EntityState
  hasTempKey : Bool
deriving DecidableEq, Repr

/-- The entity key read off a value map (`getEntityKeyFromRawEntity`). -/
def keyOf (meta : TypeMeta) (values : List (String × Nat)) : Nat :=
  (alookup meta.keyPropName values).getD 0

/-- The group's `findEntityByKey`: the cached entity indexed under `k`. -/
def findEntityByKey (meta : TypeMeta) (g : List CachedEntity) (k : Nat) : Option CachedEntity :=
  g.find? (fun e => keyOf meta e.values == k)

/-- What `importEntityGroup` did with one raw entity: merged onto the cached
    collision target (MergeOnImport published), skipped it, or created and
    attached a new instance (AttachOnImport published). -/
inductive ImportAction where
  | mergedOnImport
  | skippedMerge
  | attachedOnImport
deriving DecidableEq, Repr

/-- The per-import configuration handed to `importEntityGroup`: the merge
    strategy and the temp-key translation table. -/
structure ImportConfig where
  mergeStrategy : MergeStrategy
  tempKeyMap : List (Nat × Nat)
deriving DecidableEq, Repr

/-- Embeds `getMappedKey` (src 1966-1976) for a type with no subtypes. -/
def getMappedKey (tempKeyMap : List (Nat × Nat)) (k : Nat) : Option Nat :=
  alookup k tempKeyMap

/-- Embeds `entityType._updateTargetFromRaw` followed by
    `setEntityState` on the collision target (src 1926-1927): the cached
    entity indexed under `k` takes the raw entity's values and state. -/
def updateTargetFromRaw (meta : TypeMeta) (g : List CachedEntity) (k : Nat) (raw : RawEntity) :
    List CachedEntity :=
  g.map (fun e => if keyOf meta e.values == k
                  then { e with values := raw.values, entityState := raw.entityState }
                  else e)

/-- Embeds the foreign-key fixup loop over `tempNavPropNames`
    (src 1941-1950): each named navigation property's foreign-key value is
    translated through the temp-key map (a missing navigation property or a
    missing translation surfaces as the JS error it would raise). -/
def fixTempFks (meta : TypeMeta) (tempKeyMap : List (Nat × Nat)) :
    List String → List (String × Nat) → Except String (List (String × Nat))
  | [], values => Except.ok values
  | npName :: rest, values =>
      match alookup npName meta.navFkMap with
      | none => Except.error "unable to locate navigation property"
      | some fkPropName =>
          let oldFkValue := (alookup fkPropName values).getD 0
          match getMappedKey tempKeyMap oldFkValue with
          | none => Except.error "cannot read the values of a null key"
          | some newFk => fixTempFks meta tempKeyMap rest (aupdate fkPropName newFk values)

/-- Embeds the body of the `jsonGroup.entities.forEach` of
    `importEntityGroup` (src 1901-1961) for one raw entity against the
    destination group: the Detached guard, the temp-key bypass of collision
    lookup, the merge-strategy table on a collision, and the
    create-fixup-attach path otherwise. -/
def importEntityGroupStep (meta : TypeMeta) (cfg : ImportConfig)
    (g : List CachedEntity) (raw : RawEntity) :
    Except String (List CachedEntity × ImportAction) :=
  let entityKey := keyOf meta raw.values
  if raw.entityState.isDetached then
    Except.error "Only entities with a non detached entity state may be imported."
  else
    let newTempKey := if raw.entityState.isAdded then getMappedKey cfg.tempKeyMap entityKey else none
    let targetEntity := if newTempKey.isSome then none else findEntityByKey meta g entityKey
    match targetEntity with
    | some target =>
        if cfg.mergeStrategy = MergeStrategy.SkipMerge then
          Except.ok (g, ImportAction.skippedMerge)
        else if cfg.mergeStrategy = MergeStrategy.Disallowed then
          Except.error "A MergeStrategy of Disallowed prevents the entity from being merged"
        else
          if cfg.mergeStrategy = MergeStrategy.OverwriteChanges ∨ target.entityState.isUnchanged then
            Except.ok (updateTargetFromRaw meta g entityKey raw, ImportAction.mergedOnImport)
          else
            Except.ok (g, ImportAction.skippedMerge)
    | none =>
        match newTempKey with
        | none =>
            Except.ok (g ++ [{ values := raw.values, entityState := raw.entityState,
                               hasTempKey := false }],
                       ImportAction.attachedOnImport)
        | some nk =>
            let v1 := aupdate meta.keyPropName nk raw.values
            match fixTempFks meta cfg.tempKeyMap raw.tempNavPropNames v1 with
            | Except.error msg => Except.error msg
            | Except.ok v2 =>
                Except.ok (g ++ [{ values := v2, entityState := raw.entityState,
                                   hasTempKey := true }],
                           ImportAction.attachedOnImport)

/-- Modelled from the spec: the destination manager's KeyGenerator (not under
    src/) — spec 4.5 and 8: a per-manager generator of provisional key
    values, pairwise distinct for one manager; modelled as a counter. The
    generator accepts the imported key's value as a suggestion (src 480) but
    mints from its own state. -/
structure KeyGen where
  nextId : Nat
deriving DecidableEq, Repr

/-- Modelled from the spec: `keyGenerator.generateTempKeyValue` — the next
    provisional key value, advancing the generator. -/
def generateTempKeyValue (gen : KeyGen) : Nat × KeyGen :=
  (gen.nextId, { nextId := gen.nextId + 1 })

/-- Embeds the `json.tempKeys.forEach` of `importEntities` (src 476-481):
    every imported temp key is mapped to a key freshly minted through the
    destination manager's own key generator. -/
def buildTempKeyMap (gen : KeyGen) : List Nat → List (Nat × Nat) × KeyGen
  | [] => ([], gen)
  | k :: rest =>
      let p := generateTempKeyValue gen
      let q := buildTempKeyMap p.2 rest
      ((k, p.1) :: q.1, q.2)

end Breeze.ImportModel

namespace Breeze.ConcurrencyModel

/-!
Model D: concurrency-property stamping during `saveChanges`
(`updateConcurrencyProperties` / `updateConcurrencyProperty`,
src 2205-2248), for claim C4.

`new Date()` and `__getUuid()` are modelled as oracle streams `clock` and
`uuid`, consumed left to right at indices threaded through the state; `fuel`
bounds the date resample loop that the source runs unboundedly until the
clock produces a different instant.
-/

open Breeze

/-- The data-type classification tested by `updateConcurrencyProperty`:
    `dataType.isNumeric`, `dataType.isDate`, `DataType.Guid`,
    `DataType.Binary`, anything else (Boolean, String, Byte). -/
inductive DataTypeKind where
  | numericDT
  | dateDT
  | guidDT
  | binaryDT
  | otherDT
deriving DecidableEq, Repr

/-- A property value. -/
inductive Value where
  | vNull
  | vNum (n : Int)
  | vDate (t : Nat)
  | vGuid (g : Nat)
  | vBin (b : Nat)
deriving DecidableEq, Repr

/-- JS truthiness of a property value: null/undefined and the number 0 are
    falsy; Date objects, uuid strings and binary blobs are truthy. -/
def Value.isTruthy : Value → Bool
  | .vNull => false
  | .vNum n => n != 0
  | .vDate _ => true
  | .vGuid _ => true
  | .vBin _ => true

/-- `property.dataType.defaultValue`. -/
def DataTypeKind.defaultValue : DataTypeKind → Value
  | .numericDT => Value.vNum 0
  | .dateDT => Value.vDate 0
  | .guidDT => Value.vGuid 0
  | .binaryDT => Value.vBin 0
  | .otherDT => Value.vNull

/-- Numeric reading of a value (a numeric concurrency property holds a
    number). -/
def Value.asNum : Value → Int
  | .vNum n => n
  | _ => 0

/-- A concurrency property: name and data type. -/
structure ConcurrencyProp where
  name : String
  dataType : DataTypeKind
deriving DecidableEq, Repr

/-- An entity as the save pipeline's stamping step sees it. -/
structure SaveEntityC where
  entityState : EntityState
  isBeingSaved : Bool
  originalValues : List (String × Value)
  props : List (String × Value)
  concurrencyProperties : List ConcurrencyProp
deriving DecidableEq, Repr

/-- `entity.getProperty(name)`. -/
def getProperty (e : SaveEntityC) (n : String) : Value :=
  (alookup n e.props).getD Value.vNull

/-- `entity.setProperty(name, v)`. -/
def setProperty (e : SaveEntityC) (n : String) (v : Value) : SaveEntityC :=
  { e with props := aupdate n v e.props }

/-- Failure of the stamping step: the thrown misconfigured-concurrency-type
    error, or exhaustion of the bounded clock model inside the date loop. -/
inductive UCPError where
  | badConcurrencyType (propName : String)
  | outOfSamples
deriving DecidableEq, Repr

/-- The Date resample loop (src 2230-2234): sample `clock` from index `i`
    until the sample differs from `dt`. -/
def resampleDate (clock : Nat → Nat) (dt : Nat) : Nat → Nat → Except UCPError (Nat × Nat)
  | 0, _ => Except.error UCPError.outOfSamples
  | fuel+1, i =>
      if clock i ≠ dt then Except.ok (clock i, i + 1)
      else resampleDate clock dt fuel (i + 1)

/-- The current value fallback of src 2223-2224: `if (!value) value =
    property.dataType.defaultValue`. -/
def effectiveValue (e : SaveEntityC) (p : ConcurrencyProp) : Value :=
  let value := getProperty e p.name
  if !value.isTruthy then p.dataType.defaultValue else value

/-- Embeds `updateConcurrencyProperty` (src 2220-2248): skip when the
    recorded original value is truthy; else bump per the data type —
    numeric +1, date resampled until it differs from the fresh sample, guid
    regenerated from the uuid oracle, binary untouched, anything else
    throws. The state carries the entity and the clock and uuid oracle
    indices. -/
def updateConcurrencyProperty (clock : Nat → Nat) (uuid : Nat → Nat) (fuel : Nat)
    (st : SaveEntityC × Nat × Nat) (p : ConcurrencyProp) :
    Except UCPError (SaveEntityC × Nat × Nat) :=
  let e := st.1
  let ci := st.2.1
  let ui := st.2.2
  if ((alookup p.name e.originalValues).getD Value.vNull).isTruthy then
    Except.ok (e, ci, ui)
  else
    let value := effectiveValue e p
    match p.dataType with
    | DataTypeKind.numericDT =>
        Except.ok (setProperty e p.name (Value.vNum (value.asNum + 1)), ci, ui)
    | DataTypeKind.dateDT =>
        let dt := clock ci
        match resampleDate clock dt fuel (ci + 1) with
        | Except.error er => Except.error er
        | Except.ok (dt2, j) => Except.ok (setProperty e p.name (Value.vDate dt2), j, ui)
    | DataTypeKind.guidDT =>
        Except.ok (setProperty e p.name (Value.vGuid (uuid ui)), ci, ui + 1)
    | DataTypeKind.binaryDT =>
        Except.ok (e, ci, ui)
    | DataTypeKind.otherDT =>
        Except.error (UCPError.badConcurrencyType p.name)

/-- The fold of `updateConcurrencyProperty` over an entity's concurrency
    properties (the inner forEach of src 2213-2217). -/
def updateEntityProps (clock : Nat → Nat) (uuid : Nat → Nat) (fuel : Nat) :
    List ConcurrencyProp → SaveEntityC × Nat × Nat → Except UCPError (SaveEntityC × Nat × Nat)
  | [], st => Except.ok st
  | p :: rest, st =>
      match updateConcurrencyProperty clock uuid fuel st p with
      | Except.error er => Except.error er
      | Except.ok st1 => updateEntityProps clock uuid fuel rest st1

/-- The candidate test of src 2208-2209: Modified with at least one
    concurrency property. -/
def isCandidate (e : SaveEntityC) : Bool :=
  e.entityState.isModified && !e.concurrencyProperties.isEmpty

/-- The per-list walk of `updateConcurrencyProperties` candidates. -/
def updateEntitiesLoop (clock : Nat → Nat) (uuid : Nat → Nat) (fuel : Nat) :
    List SaveEntityC → Nat → Nat → Except UCPError (List SaveEntityC × Nat × Nat)
  | [], ci, ui => Except.ok ([], ci, ui)
  | e :: rest, ci, ui =>
      if isCandidate e then
        match updateEntityProps clock uuid fuel e.concurrencyProperties (e, ci, ui) with
        | Except.error er => Except.error er
        | Except.ok (e1, ci1, ui1) =>
            match updateEntitiesLoop clock uuid fuel rest ci1 ui1 with
            | Except.error er => Except.error er
            | Except.ok (l, ci2, ui2) => Except.ok (e1 :: l, ci2, ui2)
      else
        match updateEntitiesLoop clock uuid fuel rest ci ui with
        | Except.error er => Except.error er
        | Except.ok (l, ci2, ui2) => Except.ok (e :: l, ci2, ui2)

/-- Embeds `updateConcurrencyProperties` (src 2205-2218): the filter pass
    marks every entity `isBeingSaved` while selecting the Modified entities
    with concurrency properties, then each candidate's properties are
    updated once each, in order. -/
def updateConcurrencyProperties (clock : Nat → Nat) (uuid : Nat → Nat) (fuel : Nat)
    (entities : List SaveEntityC) (ci ui : Nat) :
    Except UCPError (List SaveEntityC × Nat × Nat) :=
  let marked := entities.map (fun e => { e with isBeingSaved := true })
  updateEntitiesLoop clock uuid fuel marked ci ui

end Breeze.ConcurrencyModel

namespace Breeze.SaveModel

/-!
Model E: the synchronous prefix of `saveChanges` (src 959-1017) together with
`getEntitiesToSave` (src 1989-2002), `clearServerErrors` (src 1104-1118) and
`saveChangesValidateOnClient` (src 1087-1102), for claims C5 and C6.

The dataservice adapter call is the asynchronous boundary; a `SaveCallResult`
records whether it was reached (`adapterCalled`), which callbacks ran
synchronously, the synchronous promise outcome, and the cache state at that
point.  The concurrency-property value stamping inside the `try` block is
modelled in `Breeze.ConcurrencyModel`; here only its `isBeingSaved` marking is
reflected, which the claims' early-exit paths never reach.
-/

open Breeze

/-- An entity as the save gate sees it. -/
structure SaveEntity where
  entityState : EntityState
  isBeingSaved : Bool
  inThisManager : Bool
  hasServerErrors : Bool
  isValidOnClient : Bool
deriving DecidableEq, Repr

/-- The manager's cache, as the save gate sees it. -/
structure SaveManager where
  entities : List (Nat × SaveEntity)
deriving DecidableEq, Repr

/-- The save options consulted by the gate. -/
structure SaveOptions where
  allowConcurrentSaves : Bool
deriving DecidableEq, Repr

/-- `em.getChanges()` with no type filter: ids of the changed entities. -/
def getChangesIds (em : SaveManager) : List Nat :=
  (em.entities.filter (fun p => p.2.entityState.isAddedModifiedOrDeleted)).map (fun p => p.1)

/-- The `entities.filter` of `getEntitiesToSave` (src 1992-1997): throw on an
    entity of another manager (an unknown id reads as such an entity), keep
    the non-Detached ones. -/
def filterSelected (em : SaveManager) : List Nat → Except String (List Nat)
  | [] => Except.ok []
  | id :: rest =>
      match alookup id em.entities with
      | none => Except.error "Only entities in this entityManager may be saved"
      | some e =>
          if !e.inThisManager then
            Except.error "Only entities in this entityManager may be saved"
          else
            match filterSelected em rest with
            | Except.error msg => Except.error msg
            | Except.ok l => Except.ok (if e.entityState.isDetached then l else id :: l)

/-- Embeds `getEntitiesToSave` (src 1989-2002). -/
def getEntitiesToSave (em : SaveManager) (sel : Option (List Nat)) : Except String (List Nat) :=
  match sel with
  | none => Except.ok (getChangesIds em)
  | some ids => filterSelected em ids

/-- The synchronous promise outcome of a `saveChanges` call. -/
inductive SavePromise where
  | resolvedSave (entities : List Nat) (keyMappings : List (Nat × Nat))
  | rejectedSave (msg : String)
  | dispatchedSave (entitiesToSave : List Nat)
deriving DecidableEq, Repr

/-- Everything observable about the synchronous part of a `saveChanges`
    call. -/
structure SaveCallResult where
  promise : SavePromise
  adapterCalled : Bool
  callbackCalled : Bool
  errorCallbackCalled : Bool
  finalState : SaveManager
deriving DecidableEq, Repr

/-- Embeds `clearServerErrors` (src 1104-1118) on the save set. -/
def clearServerErrors (em : SaveManager) (ids : List Nat) : SaveManager :=
  { entities := em.entities.map (fun p =>
      if p.1 ∈ ids then (p.1, { p.2 with hasServerErrors := false }) else p) }

/-- Embeds `saveChangesValidateOnClient` (src 1087-1102): whether a client
    validation error object is produced (Deleted entities are not
    validated). -/
def saveChangesValidateOnClient (em : SaveManager) (validateOnSave : Bool)
    (ids : List Nat) : Bool :=
  validateOnSave && ids.any (fun id =>
    match alookup id em.entities with
    | some e => !(e.entityState.isDeleted || e.isValidOnClient)
    | none => false)

/-- The `isBeingSaved` marking performed inside `updateConcurrencyProperties`
    (src 2207) on the way into the adapter call. -/
def markBeingSaved (em : SaveManager) (ids : List Nat) : SaveManager :=
  { entities := em.entities.map (fun p =>
      if p.1 ∈ ids then (p.1, { p.2 with isBeingSaved := true }) else p) }

/-- Embeds the synchronous part of `saveChanges` (src 959-1017): resolve the
    save set; resolve `{entities: [], keyMappings: []}` at once when it is
    empty; reject when concurrent saves are disallowed and a target is
    already being saved; clear server-origin validation errors; reject on the
    client validation gate; otherwise mark the targets and hand the bundle to
    the dataservice adapter. -/
def saveChanges (em : SaveManager) (sel : Option (List Nat)) (opts : SaveOptions)
    (hasCallback hasErrorCallback : Bool) (validateOnSave : Bool) : SaveCallResult :=
  match getEntitiesToSave em sel with
  | Except.error msg =>
      { promise := SavePromise.rejectedSave msg, adapterCalled := false,
        callbackCalled := false, errorCallbackCalled := false, finalState := em }
  | Except.ok entitiesToSave =>
      if entitiesToSave.isEmpty then
        { promise := SavePromise.resolvedSave [] [], adapterCalled := false,
          callbackCalled := hasCallback, errorCallbackCalled := false, finalState := em }
      else if !opts.allowConcurrentSaves &&
              entitiesToSave.any (fun id =>
                ((alookup id em.entities).map (fun e => e.isBeingSaved)).getD false) then
        { promise := SavePromise.rejectedSave
            "Concurrent saves not allowed - SaveOptions.allowConcurrentSaves is false",
          adapterCalled := false, callbackCalled := false,
          errorCallbackCalled := hasErrorCallback, finalState := em }
      else
        let em1 := clearServerErrors em entitiesToSave
        if saveChangesValidateOnClient em1 validateOnSave entitiesToSave then
          { promise := SavePromise.rejectedSave
              "Client side validation errors encountered - see the entityErrors collection on this object for more detail",
            adapterCalled := false, callbackCalled := false,
            errorCallbackCalled := hasErrorCallback, finalState := em1 }
        else
          { promise := SavePromise.dispatchedSave entitiesToSave, adapterCalled := true,
            callbackCalled := false, errorCallbackCalled := false,
            finalState := markBeingSaved em1 entitiesToSave }

end Breeze.SaveModel

namespace Breeze.QueryModel

/-!
Model F: `executeQueryLocallyCore` (src 840-890), for claim C7.

Predicates, comparators and projections are the delegate functions the query
compiler produces; they are model parameters.  `Array.prototype.sort` with a
comparator is modelled as a comparator-driven reordering (insertion sort on
the boolean before-or-equal delegate).
-/

open Breeze

/-- An entity of the local cache as the query evaluator sees it. -/
structure EntityQ where
  typeName : String
  fields : List (String × Int)
  entityState : EntityState
deriving DecidableEq, Repr

/-- Query options: each field may be unset (null on the wire). -/
structure QueryOptionsQ where
  includeDeleted : Option Bool
  mergeStrategy : Option MergeStrategy
deriving DecidableEq, Repr

/-- `QueryOptions.defaultInstance`. -/
def defaultQueryOptions : QueryOptionsQ :=
  { includeDeleted := some false, mergeStrategy := some MergeStrategy.PreserveChanges }

/-- Embeds `QueryOptions.resolve`: field-wise first non-null value. -/
def resolveQueryOptions (l : List QueryOptionsQ) : QueryOptionsQ :=
  { includeDeleted := (l.filterMap (fun q => q.includeDeleted)).head?,
    mergeStrategy := (l.filterMap (fun q => q.mergeStrategy)).head? }

/-- A local query: target type, delegate-compiled predicate, delegate
    comparator (before-or-equal), inline count switch, skip and take counts
    and query-level options. -/
structure LocalQuery where
  fromTypeName : String
  wherePredicate : Option (EntityQ → Bool)
  orderByComparer : Option (EntityQ → EntityQ → Bool)
  inlineCountEnabled : Bool
  skipCount : Option Nat
  takeCount : Option Nat
  queryOptions : Option QueryOptionsQ

/-- The manager as the local query evaluator sees it: the per-type group map
    and the manager-level query options. -/
structure ManagerQ where
  groupMap : List (String × List EntityQ)
  queryOptions : QueryOptionsQ

/-- The metadata store's type hierarchy: a type name to itself plus all its
    subtypes (`entityType.getSelfAndSubtypes`). -/
structure TypeHierarchy where
  selfAndSubtypes : String → List String

/-- Embeds `findOrCreateEntityGroup` (src 2251-2258) on the group map. -/
def findOrCreateEntityGroup (gm : List (String × List EntityQ)) (t : String) :
    List (String × List EntityQ) × List EntityQ :=
  match alookup t gm with
  | some g => (gm, g)
  | none => (gm ++ [(t, [])], [])

/-- Embeds `findOrCreateEntityGroups` (src 2260-2265): the groups of the type
    and all its subtypes, creating missing ones. -/
def findOrCreateEntityGroups (gm : List (String × List EntityQ)) :
    List String → List (String × List EntityQ) × List (List EntityQ)
  | [] => (gm, [])
  | t :: rest =>
      let p := findOrCreateEntityGroup gm t
      let q := findOrCreateEntityGroups p.1 rest
      (q.1, p.2 :: q.2)

/-- Stable insertion of `a` into `l` under the before-or-equal delegate. -/
def insertLe {α : Type} (le : α → α → Bool) (a : α) : List α → List α
  | [] => [a]
  | b :: t => if le a b then a :: b :: t else b :: insertLe le a t

/-- Comparator-driven reordering (the model of `result.sort(comparer)`). -/
def sortByDelegate {α : Type} (le : α → α → Bool) : List α → List α
  | [] => []
  | a :: t => insertLe le a (sortByDelegate le t)

/-- The composed filter of src 853-855: keep a non-Deleted entity (or any
    entity when deleted are included) that satisfies the compiled where
    predicate. -/
def newFilterFunc (includeDeleted : Bool) (filterFunc : Option (EntityQ → Bool))
    (e : EntityQ) : Bool :=
  (includeDeleted || !e.entityState.isDeleted) &&
    (match filterFunc with | some f => f e | none => true)

/-- The result of the local evaluator: the (pre-projection) results, the
    inline count, and the group map after `findOrCreateEntityGroups` (its
    only structural touch on the manager). -/
structure LocalQueryResult where
  results : List EntityQ
  inlineCount : Option Nat
  groupMap : List (String × List EntityQ)

/-- Embeds `executeQueryLocallyCore` (src 840-890): collect the groups of the
    target type and its subtypes; resolve the query options and read
    `includeDeleted === true`; filter each group and concatenate; sort under
    the comparator; record the inline count; apply the skip count and the
    take count (each skipped when falsy, i.e. absent or zero). -/
def executeQueryLocallyCore (th : TypeHierarchy) (em : ManagerQ) (q : LocalQuery) :
    LocalQueryResult :=
  let pr := findOrCreateEntityGroups em.groupMap (th.selfAndSubtypes q.fromTypeName)
  let queryOptions := resolveQueryOptions
    ((match q.queryOptions with | some o => [o] | none => []) ++
     [em.queryOptions, defaultQueryOptions])
  let includeDeleted := queryOptions.includeDeleted == some true
  let result := pr.2.foldl
    (fun acc g => acc ++ g.filter (newFilterFunc includeDeleted q.wherePredicate)) []
  let result := match q.orderByComparer with
    | some le => sortByDelegate le result
    | none => result
  let inlineCount := if q.inlineCountEnabled then some result.length else none
  let result := match q.skipCount with
    | some n => if n ≠ 0 then result.drop n else result
    | none => result
  let result := match q.takeCount with
    | some n => if n ≠ 0 then result.take n else result
    | none => result
  { results := result, inlineCount := inlineCount, groupMap := pr.1 }

/-- Embeds the projection stage (src 884-888) on top of the core: the
    optional select clause maps the results through its delegate. -/
def executeQueryLocallyProjected {α : Type} (th : TypeHierarchy) (em : ManagerQ)
    (q : LocalQuery) (selectFn : EntityQ → α) : List α :=
  (executeQueryLocallyCore th em q).results.map selectFn

/-- Written from the claim's words (C7, as stated): the filter stage excludes
    Deleted entities unless the resolved options include deleted or the
    effective merge strategy would overwrite local deletions anyway; then
    order, skip, take, over the flattened groups of the type and its
    subtypes. -/
def claimedLocalQueryResults (th : TypeHierarchy) (em : ManagerQ) (q : LocalQuery) :
    List EntityQ :=
  let queryOptions := resolveQueryOptions
    ((match q.queryOptions with | some o => [o] | none => []) ++
     [em.queryOptions, defaultQueryOptions])
  let includeDeleted := (queryOptions.includeDeleted == some true) ||
                        (queryOptions.mergeStrategy == some MergeStrategy.OverwriteChanges)
  let pool := (th.selfAndSubtypes q.fromTypeName).map
    (fun t => (alookup t em.groupMap).getD [])
  let result := pool.flatten.filter (newFilterFunc includeDeleted q.wherePredicate)
  let result := match q.orderByComparer with
    | some le => sortByDelegate le result
    | none => result
  let result := match q.skipCount with
    | some n => if n ≠ 0 then result.drop n else result
    | none => result
  match q.takeCount with
  | some n => if n ≠ 0 then result.take n else result
  | none => result

/-- Written from the amended claim's words (C7, corrected): identical staged
    pipeline, but the filter consults only the resolved `includeDeleted`
    option — the merge strategy plays no part. -/
def amendedLocalQueryResults (th : TypeHierarchy) (em : ManagerQ) (q : LocalQuery) :
    List EntityQ :=
  let queryOptions := resolveQueryOptions
    ((match q.queryOptions with | some o => [o] | none => []) ++
     [em.queryOptions, defaultQueryOptions])
  let includeDeleted := queryOptions.includeDeleted == some true
  let pool := (th.selfAndSubtypes q.fromTypeName).map
    (fun t => (alookup t em.groupMap).getD [])
  let result := pool.flatten.filter (newFilterFunc includeDeleted q.wherePredicate)
  let result := match q.orderByComparer with
    | some le => sortByDelegate le result
    | none => result
  let result := match q.skipCount with
    | some n => if n ≠ 0 then result.drop n else result
    | none => result
  match q.takeCount with
  | some n => if n ≠ 0 then result.take n else result
  | none => result

end Breeze.QueryModel

namespace Breeze.Instances

/-!
Concrete instances used by the witness and counterexample theorems.
-/

open Breeze Breeze.MgrModel Breeze.AttachModel Breeze.ImportModel
open Breeze.ConcurrencyModel Breeze.SaveModel Breeze.QueryModel

/-- A manager with one Unchanged entity and a false `_hasChanges` flag. -/
def mgrC10 : Mgr :=
  { entities := [(1, EntityState.Unchanged)], hasChangesFlag := false, events := [] }

/-- A world holding one fresh entity (id 1, made via `new`: no aspect). -/
def wA : AttachModel.World :=
  { heap := [(1, { storeId := 0, keyValue := some 5, values := [("name", 1)], aspect := none })],
    mgr := { mid := 0, storeId := 0, autoKey := true, group := [], nextTempId := 10 } }

/-- The world after attaching entity 1 to `wA` as Unchanged. -/
def wAx : AttachModel.World :=
  match AttachModel.attachEntity wA 1 EntityState.Unchanged MergeStrategy.Disallowed with
  | Except.ok p => p.2
  | Except.error _ => wA

/-- An entity owned by manager 99. -/
def eCross : AttachModel.Entity :=
  { storeId := 0, keyValue := some 1, values := [],
    aspect := some { entityManager := some 99, inProcessEntity := none,
                     entityState := EntityState.Unchanged, hasTempKey := false } }

/-- A world (manager 0) holding an entity owned by manager 99. -/
def wCross : AttachModel.World :=
  { heap := [(2, eCross)],
    mgr := { mid := 0, storeId := 0, autoKey := false, group := [], nextTempId := 0 } }

/-- A world holding one entity (id 7) that was created but never attached:
    it has an aspect, is Detached and references no manager. -/
def wNeverAttached : AttachModel.World :=
  { heap := [(7, { storeId := 0, keyValue := some 3, values := [],
                   aspect := some AttachModel.newAspect })],
    mgr := { mid := 0, storeId := 0, autoKey := false, group := [], nextTempId := 0 } }

/-- Import-model type metadata: key property `id`, navigation `parent` backed
    by foreign key `parentId`. -/
def metaI : TypeMeta := { keyPropName := "id", navFkMap := [("parent", "parentId")] }

/-- A cached entity with key 4 in Modified state. -/
def cachedModified : CachedEntity :=
  { values := [("id", 4), ("parentId", 0)], entityState := EntityState.Modified,
    hasTempKey := false }

/-- A raw imported entity with key 4 in Unchanged state. -/
def rawUnchanged : RawEntity :=
  { values := [("id", 4), ("parentId", 9)], entityState := EntityState.Unchanged,
    tempNavPropNames := [] }

/-- A raw imported Added entity whose key -3 and foreign key -4 are imported
    temp keys. -/
def rawTempAdded : RawEntity :=
  { values := [("id", 3), ("parentId", 8)], entityState := EntityState.Added,
    tempNavPropNames := ["parent"] }

/-- The counterexample entity for C4: Modified, one numeric concurrency
    property `rowVer` currently 5 whose recorded original value is 0. -/
def eCtr : SaveEntityC :=
  { entityState := EntityState.Modified, isBeingSaved := false,
    originalValues := [("rowVer", Value.vNum 0)],
    props := [("rowVer", Value.vNum 5)],
    concurrencyProperties := [{ name := "rowVer", dataType := DataTypeKind.numericDT }] }

/-- A Modified entity with a numeric concurrency property `rv` currently 7
    and no recorded original values. -/
def eNum : SaveEntityC :=
  { entityState := EntityState.Modified, isBeingSaved := false,
    originalValues := [],
    props := [("rv", Value.vNum 7)],
    concurrencyProperties := [{ name := "rv", dataType := DataTypeKind.numericDT }] }

/-- The numeric concurrency property of `eNum`. -/
def pNum : ConcurrencyProp := { name := "rv", dataType := DataTypeKind.numericDT }

/-- A save-gate manager holding one Modified entity that is already being
    saved. -/
def emBusy : SaveManager :=
  { entities := [(1, { entityState := EntityState.Modified, isBeingSaved := true,
                       inThisManager := true, hasServerErrors := false,
                       isValidOnClient := true })] }

/-- A save-gate manager holding only an Unchanged entity (no changes). -/
def emClean : SaveManager :=
  { entities := [(1, { entityState := EntityState.Unchanged, isBeingSaved := false,
                       inThisManager := true, hasServerErrors := false,
                       isValidOnClient := true })] }

/-- A Deleted cached entity for the C7 counterexample. -/
def eDel : EntityQ :=
  { typeName := "T", fields := [("x", 1)], entityState := EntityState.Deleted }

/-- The flat type hierarchy of the C7 counterexample: every type is its own
    only subtype. -/
def thFlat : TypeHierarchy := { selfAndSubtypes := fun t => [t] }

/-- The C7 counterexample manager: one group holding the Deleted entity, and
    manager query options whose merge strategy is OverwriteChanges with
    `includeDeleted` unset. -/
def emQ : ManagerQ :=
  { groupMap := [("T", [eDel])],
    queryOptions := { includeDeleted := none,
                      mergeStrategy := some MergeStrategy.OverwriteChanges } }

/-- The C7 counterexample query: target type `T`, no predicate, comparator,
    counts or options. -/
def qPlain : LocalQuery :=
  { fromTypeName := "T", wherePredicate := none, orderByComparer := none,
    inlineCountEnabled := false, skipCount := none, takeCount := none,
    queryOptions := none }

end Breeze.Instances

namespace Breeze

/-!
Theorems.  First the association-list toolbox, then one block per model.
-/

theorem alookup_aupdate_self {κ α : Type} [DecidableEq κ] (k : κ) (v : α)
    (l : List (κ × α)) : alookup k (aupdate k v l) = some v := by
  induction l with
  | nil => simp [alookup, aupdate]
  | cons p t ih =>
      obtain ⟨k1, v1⟩ := p
      by_cases h : k1 = k
      · simp [alookup, aupdate, h]
      · simp [alookup, aupdate, h, ih]

theorem alookup_aupdate_ne {κ α : Type} [DecidableEq κ] {k k1 : κ} (v : α)
    (l : List (κ × α)) (h : k1 ≠ k) : alookup k1 (aupdate k v l) = alookup k1 l := by
  have hk : k ≠ k1 := Ne.symm h
  induction l with
  | nil => simp [alookup, aupdate, hk]
  | cons p t ih =>
      obtain ⟨k2, v2⟩ := p
      by_cases h2 : k2 = k
      · subst h2
        simp [alookup, aupdate, hk]
      · simp only [aupdate, if_neg h2, alookup]
        by_cases h3 : k2 = k1
        · simp [h3]
        · simp [h3, ih]

theorem aupdate_self {κ α : Type} [DecidableEq κ] {k : κ} {v : α} {l : List (κ × α)}
    (h : alookup k l = some v) : aupdate k v l = l := by
  induction l with
  | nil => simp [alookup] at h
  | cons p t ih =>
      obtain ⟨k1, v1⟩ := p
      by_cases h1 : k1 = k
      · subst h1
        simp [alookup] at h
        simp [aupdate, h]
      · simp [alookup, h1] at h
        simp [aupdate, h1, ih h]

theorem alookup_mem {κ α : Type} [DecidableEq κ] {k : κ} {v : α} {l : List (κ × α)}
    (h : alookup k l = some v) : (k, v) ∈ l := by
  induction l with
  | nil => simp [alookup] at h
  | cons p t ih =>
      obtain ⟨k1, v1⟩ := p
      by_cases h1 : k1 = k
      · subst h1
        simp [alookup] at h
        simp [h]
      · simp [alookup, h1] at h
        exact List.mem_cons_of_mem _ (ih h)

theorem alookup_isSome_of_mem {κ α : Type} [DecidableEq κ] {k : κ} {v : α}
    {l : List (κ × α)} (h : (k, v) ∈ l) : (alookup k l).isSome := by
  induction l with
  | nil => simp at h
  | cons p t ih =>
      obtain ⟨k1, v1⟩ := p
      rcases List.mem_cons.mp h with h1 | h1
      · cases h1
        simp [alookup]
      · by_cases h2 : k1 = k
        · simp [alookup, h2]
        · simp [alookup, h2]
          exact ih h1

end Breeze


namespace Breeze.MgrModel

theorem hasChangesCore_congr (m1 m : Mgr) (h : m1.entities = m.entities) :
    hasChangesCore m1 = hasChangesCore m := by
  unfold hasChangesCore
  rw [h]

theorem notifyStateChange_entities (m : Mgr) (id : Nat) (b : Bool) :
    (notifyStateChange m id b).entities = m.entities := by
  unfold notifyStateChange
  cases b <;> cases h : m.hasChangesFlag <;> simp [h, setHasChanges]

theorem notifyStateChange_flag_true (m : Mgr) (id : Nat) :
    (notifyStateChange m id true).hasChangesFlag = true := by
  unfold notifyStateChange
  cases h : m.hasChangesFlag <;> simp [h, setHasChanges]

theorem notifyStateChange_flag_false_of_true (m : Mgr) (id : Nat)
    (h : m.hasChangesFlag = true) :
    (notifyStateChange m id false).hasChangesFlag = hasChangesCore m := by
  unfold notifyStateChange
  simp [h, setHasChanges]

theorem notifyStateChange_flag_false_of_false (m : Mgr) (id : Nat)
    (h : m.hasChangesFlag = false) :
    (notifyStateChange m id false).hasChangesFlag = false := by
  unfold notifyStateChange
  simp [h]

theorem hasChangesCore_removeAll_false (m1 m : Mgr) (id : Nat)
    (he : m1.entities = removeAll id m.entities) (h : hasChangesCore m = false) :
    hasChangesCore m1 = false := by
  unfold hasChangesCore at h ⊢
  rw [he]
  simp only [List.any_eq_false, removeAll] at h ⊢
  intro a ha
  exact h a (List.mem_filter.mp ha).1

theorem hasChangesCore_setUnchanged_false (m1 m : Mgr) (id : Nat)
    (he : m1.entities = setStateAll id EntityState.Unchanged m.entities)
    (h : hasChangesCore m = false) : hasChangesCore m1 = false := by
  unfold hasChangesCore at h ⊢
  rw [he]
  simp only [List.any_eq_false, setStateAll, List.mem_map] at h ⊢
  rintro a ⟨b, hb, rfl⟩
  by_cases hk : b.1 = id
  · simp [hk, EntityState.isAddedModifiedOrDeleted]
  · simpa [hk] using h b hb

theorem setDetachedOp_inv (m : Mgr) (id : Nat) (h : FlagInv m) :
    FlagInv (setDetachedOp m id) := by
  unfold FlagInv at h ⊢
  unfold setDetachedOp
  set m1 : Mgr := { m with entities := removeAll id m.entities } with hm1
  show (notifyStateChange m1 id false).hasChangesFlag =
       hasChangesCore (notifyStateChange m1 id false)
  rw [hasChangesCore_congr _ m1 (notifyStateChange_entities m1 id false)]
  cases hf : m.hasChangesFlag with
  | true => rw [notifyStateChange_flag_false_of_true m1 id hf]
  | false =>
      rw [notifyStateChange_flag_false_of_false m1 id hf]
      have hc : hasChangesCore m = false := by rw [← h, hf]
      exact (hasChangesCore_removeAll_false m1 m id rfl hc).symm

theorem attachOp_inv (m : Mgr) (id : Nat) (s : AttachState) (h : FlagInv m) :
    FlagInv (attachOp m id s) := by
  unfold FlagInv at h ⊢
  unfold attachOp
  cases hp : (alookup id m.entities).isSome with
  | true => simp [hp, h]
  | false =>
      simp only [hp, Bool.false_eq_true, if_false]
      cases s
      case asUnchanged =>
        show m.hasChangesFlag =
             hasChangesCore { m with entities := m.entities ++ [(id, EntityState.Unchanged)] }
        unfold hasChangesCore at h ⊢
        simp [List.any_append, EntityState.isAddedModifiedOrDeleted, h]
      case asAdded =>
        show (notifyStateChange
                { m with entities := m.entities ++ [(id, EntityState.Added)] } id true).hasChangesFlag =
             hasChangesCore (notifyStateChange
                { m with entities := m.entities ++ [(id, EntityState.Added)] } id true)
        rw [notifyStateChange_flag_true, hasChangesCore_congr _ _ (notifyStateChange_entities _ id true)]
        unfold hasChangesCore
        simp [List.any_append, EntityState.isAddedModifiedOrDeleted]
      case asModified =>
        show (notifyStateChange
                { m with entities := m.entities ++ [(id, EntityState.Modified)] } id true).hasChangesFlag =
             hasChangesCore (notifyStateChange
                { m with entities := m.entities ++ [(id, EntityState.Modified)] } id true)
        rw [notifyStateChange_flag_true, hasChangesCore_congr _ _ (notifyStateChange_entities _ id true)]
        unfold hasChangesCore
        simp [List.any_append, EntityState.isAddedModifiedOrDeleted]
      case asDeleted =>
        show (notifyStateChange
                { m with entities := m.entities ++ [(id, EntityState.Deleted)] } id true).hasChangesFlag =
             hasChangesCore (notifyStateChange
                { m with entities := m.entities ++ [(id, EntityState.Deleted)] } id true)
        rw [notifyStateChange_flag_true, hasChangesCore_congr _ _ (notifyStateChange_entities _ id true)]
        unfold hasChangesCore
        simp [List.any_append, EntityState.isAddedModifiedOrDeleted]

theorem editOp_inv (m : Mgr) (id : Nat) (h : FlagInv m) : FlagInv (editOp m id) := by
  unfold FlagInv at h ⊢
  unfold editOp
  cases hl : alookup id m.entities with
  | none => exact h
  | some s =>
      cases s
      case Unchanged =>
        set m1 : Mgr := { m with entities := setStateAll id EntityState.Modified m.entities }
          with hm1
        show (notifyStateChange m1 id true).hasChangesFlag =
             hasChangesCore (notifyStateChange m1 id true)
        rw [notifyStateChange_flag_true, hasChangesCore_congr _ m1 (notifyStateChange_entities m1 id true)]
        have hmem : (id, EntityState.Unchanged) ∈ m.entities := alookup_mem hl
        have hmem1 : (id, EntityState.Modified) ∈ m1.entities := by
          simp only [hm1, setStateAll, List.mem_map]
          exact ⟨(id, EntityState.Unchanged), hmem, by simp⟩
        have hc : hasChangesCore m1 = true := by
          unfold hasChangesCore
          rw [List.any_eq_true]
          exact ⟨(id, EntityState.Modified), hmem1, by simp [EntityState.isAddedModifiedOrDeleted]⟩
        rw [hc]
      all_goals exact h

theorem acceptOneAspect_inv (m : Mgr) (id : Nat) (h : FlagInv m) :
    FlagInv (acceptOneAspect m id) := by
  unfold FlagInv at h ⊢
  unfold acceptOneAspect
  cases hl : alookup id m.entities with
  | none => exact h
  | some s =>
      cases s
      case Deleted =>
        show (setDetachedOp m id).hasChangesFlag = hasChangesCore (setDetachedOp m id)
        exact setDetachedOp_inv m id h
      all_goals {
        set m1 : Mgr := { m with entities := setStateAll id EntityState.Unchanged m.entities }
          with hm1
        show (notifyStateChange m1 id false).hasChangesFlag =
             hasChangesCore (notifyStateChange m1 id false)
        rw [hasChangesCore_congr _ m1 (notifyStateChange_entities m1 id false)]
        cases hf : m.hasChangesFlag with
        | true => rw [notifyStateChange_flag_false_of_true m1 id hf]
        | false =>
            rw [notifyStateChange_flag_false_of_false m1 id hf]
            have hc : hasChangesCore m = false := by rw [← h, hf]
            exact (hasChangesCore_setUnchanged_false m1 m id rfl hc).symm
      }

theorem acceptChangesOp_inv (m : Mgr) (h : FlagInv m) : FlagInv (acceptChangesOp m) := by
  unfold acceptChangesOp
  generalize changedIds m = ids
  induction ids generalizing m with
  | nil => exact h
  | cons id rest ih => exact ih _ (acceptOneAspect_inv m id h)

theorem rejectOneAspect_flag_false (m : Mgr) (id : Nat) (h : m.hasChangesFlag = false) :
    (rejectOneAspect m id).hasChangesFlag = false := by
  unfold rejectOneAspect
  cases hl : alookup id m.entities with
  | none => exact h
  | some s =>
      cases s
      case Added =>
        show (setDetachedOp m id).hasChangesFlag = false
        unfold setDetachedOp
        exact notifyStateChange_flag_false_of_false _ id h
      all_goals exact notifyStateChange_flag_false_of_false _ id h

theorem rejectOneAspect_changed_mem (m : Mgr) (id : Nat) :
    ∀ p ∈ (rejectOneAspect m id).entities, p.2.isAddedModifiedOrDeleted = true →
      p ∈ m.entities ∧ p.1 ≠ id := by
  unfold rejectOneAspect
  cases hl : alookup id m.entities with
  | none =>
      intro p hp hchg
      refine ⟨hp, ?_⟩
      intro hk
      obtain ⟨k, v⟩ := p
      cases hk
      have := alookup_isSome_of_mem hp
      rw [hl] at this
      simp at this
  | some s =>
      have hAdded : ∀ p ∈ (setDetachedOp m id).entities, p.2.isAddedModifiedOrDeleted = true →
          p ∈ m.entities ∧ p.1 ≠ id := by
        unfold setDetachedOp
        intro p hp hchg
        rw [notifyStateChange_entities] at hp
        simp only [removeAll, List.mem_filter] at hp
        exact ⟨hp.1, by simpa using hp.2⟩
      have hOther : ∀ p ∈ (notifyStateChange
            { m with entities := setStateAll id EntityState.Unchanged m.entities } id false).entities,
          p.2.isAddedModifiedOrDeleted = true → p ∈ m.entities ∧ p.1 ≠ id := by
        intro p hp hchg
        rw [notifyStateChange_entities] at hp
        simp only [setStateAll, List.mem_map] at hp
        obtain ⟨q, hq, rfl⟩ := hp
        by_cases hk : q.1 = id
        · simp [hk, EntityState.isAddedModifiedOrDeleted] at hchg
        · exact ⟨by simpa [hk] using hq, by simp [hk]⟩
      cases s
      case Added => exact fun p hp hchg => hAdded p hp hchg
      all_goals exact fun p hp hchg => hOther p hp hchg

theorem reject_fold (ids : List Nat) : ∀ (m : Mgr), m.hasChangesFlag = false →
    (∀ p ∈ m.entities, p.2.isAddedModifiedOrDeleted = true → p.1 ∈ ids) →
    (ids.foldl rejectOneAspect m).hasChangesFlag = false ∧
      hasChangesCore (ids.foldl rejectOneAspect m) = false := by
  induction ids with
  | nil =>
      intro m hf hcov
      refine ⟨hf, ?_⟩
      unfold hasChangesCore
      rw [List.any_eq_false]
      intro p hp
      intro hchg
      exact absurd (hcov p hp (by simpa using hchg)) (List.not_mem_nil _)
  | cons id rest ih =>
      intro m hf hcov
      simp only [List.foldl_cons]
      refine ih (rejectOneAspect m id) (rejectOneAspect_flag_false m id hf) ?_
      intro p hp hchg
      obtain ⟨hmem, hne⟩ := rejectOneAspect_changed_mem m id p hp hchg
      have := hcov p hmem hchg
      rcases List.mem_cons.mp this with h1 | h1
      · exact absurd h1 hne
      · exact h1

theorem rejectChangesOp_inv (m : Mgr) (h : FlagInv m) : FlagInv (rejectChangesOp m).2 := by
  unfold FlagInv at h ⊢
  unfold rejectChangesOp
  cases hf : m.hasChangesFlag with
  | false => simpa [hf] using h
  | true =>
      simp only [hf, Bool.not_true, Bool.false_eq_true, if_false]
      have hcov : ∀ p ∈ ({ m with hasChangesFlag := false } : Mgr).entities,
          p.2.isAddedModifiedOrDeleted = true → p.1 ∈ changedIds m := by
        intro p hp hchg
        unfold changedIds
        simp only [List.mem_map, List.mem_filter]
        exact ⟨p, ⟨hp, hchg⟩, rfl⟩
      obtain ⟨h1, h2⟩ := reject_fold (changedIds m) { m with hasChangesFlag := false } rfl hcov
      show ((changedIds m).foldl rejectOneAspect { m with hasChangesFlag := false }).hasChangesFlag =
           hasChangesCore ((changedIds m).foldl rejectOneAspect { m with hasChangesFlag := false })
      rw [h1, h2]

theorem applyOp_inv (m : Mgr) (op : MgrOp) (h : FlagInv m) : FlagInv (applyOp m op) := by
  cases op with
  | opAttach id s => exact attachOp_inv m id s h
  | opEdit id => exact editOp_inv m id h
  | opAccept => exact acceptChangesOp_inv m h
  | opReject => exact rejectChangesOp_inv m h
  | opDetach id =>
      unfold applyOp detachOp
      cases hl : alookup id m.entities with
      | none =>
          simp only [hl]
          exact h
      | some s =>
          simp only [hl]
          exact setDetachedOp_inv m id h

theorem runOps_inv (ops : List MgrOp) : FlagInv (runOps ops) := by
  unfold runOps
  have hinit : FlagInv initMgr := rfl
  generalize initMgr = m0 at hinit ⊢
  induction ops generalizing m0 with
  | nil => exact hinit
  | cons op rest ih => exact ih (applyOp m0 op) (applyOp_inv m0 op hinit)

/-- C1: for every EntityManager, `hasChanges()` returns true iff some entity
    attached to the manager has an entityState in {Added, Modified, Deleted};
    this equivalence holds after every sequence of attach, property-edit,
    acceptChanges, rejectChanges and detach operations run from a fresh
    manager — the cached `_hasChanges` flag never disagrees with the
    recomputed answer at a public observation point. -/
theorem hasChanges_cached_flag_consistent (ops : List MgrOp) :
    hasChangesPublic (runOps ops) = true ↔
      ∃ p ∈ (runOps ops).entities, p.2.isAddedModifiedOrDeleted = true := by
  have h : FlagInv (runOps ops) := runOps_inv ops
  unfold FlagInv at h
  unfold hasChangesPublic
  rw [h]
  unfold hasChangesCore
  rw [List.any_eq_true]

/-- C10: for every manager whose cached `_hasChanges` flag is false,
    `rejectChanges()` returns the empty array, mutates no entity and no
    group, and publishes no entityChanged or hasChangesChanged notification
    (the manager state, events included, is returned unchanged). -/
theorem rejectChanges_noop_when_no_changes (m : Mgr) (h : m.hasChangesFlag = false) :
    rejectChangesOp m = ([], m) := by
  unfold rejectChangesOp
  simp [h]

/-- Witness for C10 at a concrete manager with one Unchanged entity. -/
theorem rejectChanges_noop_when_no_changes_witness :
    Breeze.Instances.mgrC10.hasChangesFlag = false ∧
      rejectChangesOp Breeze.Instances.mgrC10 = ([], Breeze.Instances.mgrC10) :=
  ⟨rfl, rejectChanges_noop_when_no_changes Breeze.Instances.mgrC10 rfl⟩

end Breeze.MgrModel

namespace Breeze.ImportModel

theorem findEntityByKey_updateTarget (meta : TypeMeta) (g : List CachedEntity)
    (raw : RawEntity) (c : CachedEntity) (k : Nat)
    (hk : keyOf meta raw.values = k)
    (hfind : findEntityByKey meta g k = some c) :
    findEntityByKey meta (updateTargetFromRaw meta g k raw) k =
      some { c with values := raw.values, entityState := raw.entityState } := by
  induction g with
  | nil => simp [findEntityByKey] at hfind
  | cons e t ih =>
      unfold findEntityByKey at hfind ih ⊢
      unfold updateTargetFromRaw at ih ⊢
      simp only [List.map_cons]
      cases hm : (keyOf meta e.values == k) with
      | true =>
          simp only [List.find?, hm] at hfind
          simp only [Option.some.injEq] at hfind
          subst hfind
          simp only [hm, if_true]
          have hc : (keyOf meta
              ({ e with values := raw.values, entityState := raw.entityState } :
                CachedEntity).values == k) = true := by
            simp [hk]
          simp only [List.find?, hc]
      | false =>
          simp only [List.find?, hm] at hfind
          simp only [hm, Bool.false_eq_true, if_false]
          simp only [List.find?, hm]
          exact ih hfind

/-- C3: when an imported entity's key collides with a cached entity (and the
    imported entity is not a temp-keyed Added entity, which bypasses the
    collision lookup), `importEntityGroup` resolves the collision exactly per
    the MergeStrategy table: Disallowed throws for any cached state;
    OverwriteChanges writes the raw values and state onto the cached entity
    for any cached state; PreserveChanges does so only when the cached entity
    is Unchanged and otherwise leaves it untouched; SkipMerge leaves it
    untouched in all cases. -/
theorem importMerge_strategy_table (meta : TypeMeta) (tkm : List (Nat × Nat))
    (g : List CachedEntity) (raw : RawEntity) (c : CachedEntity)
    (hs : raw.entityState.isDetached = false)
    (hnt : raw.entityState.isAdded = true →
      getMappedKey tkm (keyOf meta raw.values) = none)
    (hfind : findEntityByKey meta g (keyOf meta raw.values) = some c) :
    (importEntityGroupStep meta
        { mergeStrategy := MergeStrategy.Disallowed, tempKeyMap := tkm } g raw
      = Except.error "A MergeStrategy of Disallowed prevents the entity from being merged") ∧
    (importEntityGroupStep meta
        { mergeStrategy := MergeStrategy.OverwriteChanges, tempKeyMap := tkm } g raw
      = Except.ok (updateTargetFromRaw meta g (keyOf meta raw.values) raw,
                   ImportAction.mergedOnImport)) ∧
    (importEntityGroupStep meta
        { mergeStrategy := MergeStrategy.PreserveChanges, tempKeyMap := tkm } g raw
      = if c.entityState.isUnchanged then
          Except.ok (updateTargetFromRaw meta g (keyOf meta raw.values) raw,
                     ImportAction.mergedOnImport)
        else Except.ok (g, ImportAction.skippedMerge)) ∧
    (importEntityGroupStep meta
        { mergeStrategy := MergeStrategy.SkipMerge, tempKeyMap := tkm } g raw
      = Except.ok (g, ImportAction.skippedMerge)) ∧
    findEntityByKey meta (updateTargetFromRaw meta g (keyOf meta raw.values) raw)
        (keyOf meta raw.values)
      = some { c with values := raw.values, entityState := raw.entityState } := by
  have hupd := findEntityByKey_updateTarget meta g raw c (keyOf meta raw.values) rfl hfind
  have hmap : (if raw.entityState.isAdded then getMappedKey tkm (keyOf meta raw.values)
               else none) = none := by
    cases hadd : raw.entityState.isAdded with
    | true => simpa using hnt hadd
    | false => simp
  refine ⟨?_, ?_, ?_, ?_, hupd⟩
  · unfold importEntityGroupStep
    simp [hs, hmap, hfind]
  · unfold importEntityGroupStep
    simp [hs, hmap, hfind]
  · unfold importEntityGroupStep
    simp only [hs, Bool.false_eq_true, if_false, hmap, Option.isSome_none, hfind]
    cases hu : c.entityState.isUnchanged <;> simp [hu]
  · unfold importEntityGroupStep
    simp [hs, hmap, hfind]

/-- Witness for C3: a Modified cached entity under PreserveChanges is left
    untouched, and under OverwriteChanges takes the raw values and state. -/
theorem importMerge_strategy_table_witness :
    (importEntityGroupStep Breeze.Instances.metaI
        { mergeStrategy := MergeStrategy.PreserveChanges, tempKeyMap := [] }
        [Breeze.Instances.cachedModified] Breeze.Instances.rawUnchanged
      = Except.ok ([Breeze.Instances.cachedModified], ImportAction.skippedMerge)) ∧
    (importEntityGroupStep Breeze.Instances.metaI
        { mergeStrategy := MergeStrategy.Disallowed, tempKeyMap := [] }
        [Breeze.Instances.cachedModified] Breeze.Instances.rawUnchanged
      = Except.error "A MergeStrategy of Disallowed prevents the entity from being merged") := by
  have h := importMerge_strategy_table Breeze.Instances.metaI []
      [Breeze.Instances.cachedModified] Breeze.Instances.rawUnchanged
      Breeze.Instances.cachedModified (by decide) (fun hh => by decide)
      (by decide)
  refine ⟨h.2.2.1.trans ?_, h.1⟩
  simp [Breeze.Instances.cachedModified, EntityState.isUnchanged]

end Breeze.ImportModel

namespace Breeze.ConcurrencyModel

theorem resampleDate_spec (clock : Nat → Nat) (dt : Nat) :
    ∀ (fuel i v j : Nat), resampleDate clock dt fuel i = Except.ok (v, j) →
      v ≠ dt ∧ ∃ idx, i ≤ idx ∧ v = clock idx := by
  intro fuel
  induction fuel with
  | zero =>
      intro i v j h
      exact Except.noConfusion h
  | succ n ih =>
      intro i v j h
      unfold resampleDate at h
      by_cases hc : clock i ≠ dt
      · rw [if_pos hc] at h
        simp only [Except.ok.injEq, Prod.mk.injEq] at h
        obtain ⟨hv, hj⟩ := h
        exact ⟨hv ▸ hc, i, Nat.le_refl i, hv.symm⟩
      · rw [if_neg hc] at h
        obtain ⟨hne, idx, hle, hv⟩ := ih (i + 1) v j h
        exact ⟨hne, idx, by omega, hv⟩

theorem updateEntitiesLoop_noncandidates (clock uuid : Nat → Nat) (fuel : Nat) :
    ∀ (l : List SaveEntityC) (ci ui : Nat), (∀ e1 ∈ l, isCandidate e1 = false) →
      updateEntitiesLoop clock uuid fuel l ci ui = Except.ok (l, ci, ui) := by
  intro l
  induction l with
  | nil => intro ci ui h; rfl
  | cons e t ih =>
      intro ci ui h
      unfold updateEntitiesLoop
      have he : isCandidate e = false := h e (List.mem_cons_self e t)
      rw [he]
      simp only [Bool.false_eq_true, if_false]
      rw [ih ci ui (fun e1 h1 => h e1 (List.mem_cons_of_mem e h1))]

/-- C4 counterexample (claim as stated is false): entity `eCtr` is Modified
    and its numeric concurrency property `rowVer` HAS a recorded original
    value (0) — per the claim the bump must be skipped — yet the save
    attempt's stamping bumps it from 5 to 6, because the source's guard
    (src 2222) tests JS truthiness of the recorded value rather than its
    presence, and 0 is falsy. -/
theorem concurrencyBump_despite_recorded_original :
    (alookup "rowVer" Breeze.Instances.eCtr.originalValues).isSome = true ∧
    getProperty Breeze.Instances.eCtr "rowVer" = Value.vNum 5 ∧
    updateConcurrencyProperties (fun i => i) (fun i => i) 1 [Breeze.Instances.eCtr] 0 0
      = Except.ok ([{ Breeze.Instances.eCtr with
                      isBeingSaved := true
                      props := [("rowVer", Value.vNum 6)] }], 0, 0) := by
  refine ⟨rfl, rfl, ?_⟩
  rfl

/-- C4 (amended): during saveChanges, for every target entity in Modified
    state with concurrency properties, each concurrency property is bumped
    once per save attempt, skipped when the property's recorded original
    value is JS-truthy (a falsy recorded original, e.g. 0, does not suppress
    the bump); the new value follows the data type — numeric incremented by
    1, date/timestamp resampled until strictly greater than the fresh sample
    (no duplicate instant), Guid regenerated fresh from the uuid source,
    Binary untouched; any other data type raises the error that makes
    saveChanges fail.  Entities that are not Modified-with-concurrency-
    properties are only marked isBeingSaved. -/
theorem updateConcurrencyProperty_behavior (clock uuid : Nat → Nat) (fuel : Nat)
    (e : SaveEntityC) (ci ui : Nat) (p : ConcurrencyProp)
    (hmono : ∀ i j : Nat, i ≤ j → clock i ≤ clock j) :
    (((alookup p.name e.originalValues).getD Value.vNull).isTruthy = true →
      updateConcurrencyProperty clock uuid fuel (e, ci, ui) p = Except.ok (e, ci, ui)) ∧
    (((alookup p.name e.originalValues).getD Value.vNull).isTruthy = false →
      (p.dataType = DataTypeKind.numericDT →
        updateConcurrencyProperty clock uuid fuel (e, ci, ui) p =
          Except.ok (setProperty e p.name
            (Value.vNum ((effectiveValue e p).asNum + 1)), ci, ui)) ∧
      (p.dataType = DataTypeKind.dateDT →
        ∀ dt2 j : Nat, resampleDate clock (clock ci) fuel (ci + 1) = Except.ok (dt2, j) →
          updateConcurrencyProperty clock uuid fuel (e, ci, ui) p =
            Except.ok (setProperty e p.name (Value.vDate dt2), j, ui) ∧ clock ci < dt2) ∧
      (p.dataType = DataTypeKind.guidDT →
        updateConcurrencyProperty clock uuid fuel (e, ci, ui) p =
          Except.ok (setProperty e p.name (Value.vGuid (uuid ui)), ci, ui + 1)) ∧
      (p.dataType = DataTypeKind.binaryDT →
        updateConcurrencyProperty clock uuid fuel (e, ci, ui) p = Except.ok (e, ci, ui)) ∧
      (p.dataType = DataTypeKind.otherDT →
        updateConcurrencyProperty clock uuid fuel (e, ci, ui) p =
          Except.error (UCPError.badConcurrencyType p.name))) ∧
    (∀ (entities : List SaveEntityC) (ci0 ui0 : Nat),
      (∀ e1 ∈ entities, isCandidate e1 = false) →
      updateConcurrencyProperties clock uuid fuel entities ci0 ui0 =
        Except.ok (entities.map (fun e1 => { e1 with isBeingSaved := true }), ci0, ui0)) := by
  refine ⟨?_, ?_, ?_⟩
  · intro ht
    unfold updateConcurrencyProperty
    simp [ht]
  · intro hf
    refine ⟨?_, ?_, ?_, ?_, ?_⟩
    · intro hdt
      unfold updateConcurrencyProperty
      simp [hf, hdt, effectiveValue]
    · intro hdt dt2 j hres
      obtain ⟨hne, idx, hle, hv⟩ := resampleDate_spec clock (clock ci) fuel (ci + 1) dt2 j hres
      constructor
      · unfold updateConcurrencyProperty
        simp [hf, hdt, hres]
      · have h1 : clock ci ≤ clock idx := hmono ci idx (by omega)
        rw [hv] at hne ⊢
        omega
    · intro hdt
      unfold updateConcurrencyProperty
      simp [hf, hdt]
    · intro hdt
      unfold updateConcurrencyProperty
      simp [hf, hdt]
    · intro hdt
      unfold updateConcurrencyProperty
      simp [hf, hdt]
  · intro entities ci0 ui0 hnc
    unfold updateConcurrencyProperties
    refine updateEntitiesLoop_noncandidates clock uuid fuel _ ci0 ui0 ?_
    intro e1 h1
    obtain ⟨e2, he2, rfl⟩ := List.mem_map.mp h1
    exact hnc e2 he2

/-- Witness for C4 (amended) at the numeric entity `eNum` with no recorded
    original values. -/
theorem updateConcurrencyProperty_behavior_witness :
    updateConcurrencyProperty (fun i => i) (fun i => i) 1
        (Breeze.Instances.eNum, 0, 0) Breeze.Instances.pNum
      = Except.ok (setProperty Breeze.Instances.eNum "rv"
          (Value.vNum ((effectiveValue Breeze.Instances.eNum Breeze.Instances.pNum).asNum + 1)),
          0, 0) := by
  have h := updateConcurrencyProperty_behavior (fun i => i) (fun i => i) 1
      Breeze.Instances.eNum 0 0 Breeze.Instances.pNum (fun i j hij => hij)
  exact (h.2.1 (by decide)).1 rfl

end Breeze.ConcurrencyModel

namespace Breeze.SaveModel

/-- C6: for every saveChanges call whose target entity set is empty after
    excluding Detached entities (including a manager with no changes),
    saveChanges makes no adapter call, performs no cache mutation, invokes
    the success callback, and returns a resolved result of the form
    `{ entities: [], keyMappings: [] }`. -/
theorem saveChanges_empty_noop (em : SaveManager) (sel : Option (List Nat))
    (opts : SaveOptions) (cb ecb vos : Bool)
    (h : getEntitiesToSave em sel = Except.ok []) :
    saveChanges em sel opts cb ecb vos =
      { promise := SavePromise.resolvedSave [] [], adapterCalled := false,
        callbackCalled := cb, errorCallbackCalled := false, finalState := em } := by
  unfold saveChanges
  rw [h]
  rfl

/-- Witness for C6 at a manager holding only an Unchanged entity, with no
    entity list passed. -/
theorem saveChanges_empty_noop_witness :
    getEntitiesToSave Breeze.Instances.emClean none = Except.ok [] ∧
    saveChanges Breeze.Instances.emClean none { allowConcurrentSaves := false } true false true =
      { promise := SavePromise.resolvedSave [] [], adapterCalled := false,
        callbackCalled := true, errorCallbackCalled := false,
        finalState := Breeze.Instances.emClean } :=
  ⟨rfl, saveChanges_empty_noop Breeze.Instances.emClean none
      { allowConcurrentSaves := false } true false true rfl⟩

/-- C5: for every saveChanges call with allowConcurrentSaves false, if some
    entity of the (non-empty) save set already has isBeingSaved true, the
    call rejects immediately with the concurrency error — delivered through
    the error callback when one was passed and through the rejected promise —
    makes no adapter call and mutates no entity. -/
theorem saveChanges_concurrency_reject (em : SaveManager) (sel : Option (List Nat))
    (opts : SaveOptions) (cb ecb vos : Bool) (es : List Nat)
    (h : getEntitiesToSave em sel = Except.ok es) (hne : es ≠ [])
    (hcs : opts.allowConcurrentSaves = false)
    (hbs : es.any (fun id =>
      ((alookup id em.entities).map (fun e => e.isBeingSaved)).getD false) = true) :
    saveChanges em sel opts cb ecb vos =
      { promise := SavePromise.rejectedSave
          "Concurrent saves not allowed - SaveOptions.allowConcurrentSaves is false",
        adapterCalled := false, callbackCalled := false,
        errorCallbackCalled := ecb, finalState := em } := by
  unfold saveChanges
  rw [h]
  have hne2 : es.isEmpty = false := by
    cases es with
    | nil => exact absurd rfl hne
    | cons a t => rfl
  simp [hne2, hcs, hbs]

/-- Witness for C5 at a manager whose one Modified entity is already being
    saved. -/
theorem saveChanges_concurrency_reject_witness :
    getEntitiesToSave Breeze.Instances.emBusy none = Except.ok [1] ∧
    saveChanges Breeze.Instances.emBusy none { allowConcurrentSaves := false } false true true =
      { promise := SavePromise.rejectedSave
          "Concurrent saves not allowed - SaveOptions.allowConcurrentSaves is false",
        adapterCalled := false, callbackCalled := false,
        errorCallbackCalled := true, finalState := Breeze.Instances.emBusy } :=
  ⟨rfl, saveChanges_concurrency_reject Breeze.Instances.emBusy none
      { allowConcurrentSaves := false } false true true [1] rfl (by decide) rfl (by decide)⟩

end Breeze.SaveModel

namespace Breeze.QueryModel

open Breeze

theorem alookup_append_orElse {κ α : Type} [DecidableEq κ] (k : κ)
    (l1 l2 : List (κ × α)) :
    alookup k (l1 ++ l2) = (alookup k l1).orElse (fun _ => alookup k l2) := by
  induction l1 with
  | nil => simp [alookup]
  | cons p t ih =>
      obtain ⟨k1, v1⟩ := p
      by_cases h : k1 = k
      · simp [alookup, h]
      · simp [alookup, h, ih]

theorem findOrCreateEntityGroups_spec (ts : List String) :
    ∀ (gm : List (String × List EntityQ)),
      (findOrCreateEntityGroups gm ts).2 = ts.map (fun t => (alookup t gm).getD []) ∧
      (∀ t1, (alookup t1 (findOrCreateEntityGroups gm ts).1).getD [] =
        (alookup t1 gm).getD []) ∧
      (∀ t1 g, alookup t1 gm = some g →
        alookup t1 (findOrCreateEntityGroups gm ts).1 = some g) := by
  induction ts with
  | nil =>
      intro gm
      exact ⟨rfl, fun t1 => rfl, fun t1 g h => h⟩
  | cons t rest ih =>
      intro gm
      unfold findOrCreateEntityGroups
      cases hl : alookup t gm with
      | some g =>
          unfold findOrCreateEntityGroup
          rw [hl]
          obtain ⟨h1, h2, h3⟩ := ih gm
          refine ⟨?_, h2, h3⟩
          simp only [List.map_cons, h1, hl, Option.getD_some]
      | none =>
          unfold findOrCreateEntityGroup
          rw [hl]
          set gm1 := gm ++ [(t, [])] with hgm1
          have hinv : ∀ t1, (alookup t1 gm1).getD [] = (alookup t1 gm).getD [] := by
            intro t1
            rw [hgm1, alookup_append_orElse]
            cases hx : alookup t1 gm with
            | some g1 => simp [hx]
            | none =>
                by_cases ht : t = t1
                · subst ht
                  simp [alookup]
                · simp [alookup, ht]
          have hpres : ∀ t1 g, alookup t1 gm = some g → alookup t1 gm1 = some g := by
            intro t1 g h
            rw [hgm1, alookup_append_orElse, h]
            rfl
          obtain ⟨h1, h2, h3⟩ := ih gm1
          refine ⟨?_, ?_, ?_⟩
          · simp only [List.map_cons, h1, hl, Option.getD_none]
            have hf : (fun t1 => (alookup t1 gm1).getD []) =
                (fun t1 => (alookup t1 gm).getD []) := funext hinv
            rw [hf]
          · intro t1
            rw [h2 t1, hinv t1]
          · intro t1 g h
            exact h3 t1 g (hpres t1 g h)

theorem foldl_append_filter {α : Type} (p : α → Bool) :
    ∀ (gs : List (List α)) (acc : List α),
      gs.foldl (fun acc g => acc ++ g.filter p) acc = acc ++ gs.flatten.filter p := by
  intro gs
  induction gs with
  | nil => intro acc; simp
  | cons g rest ih =>
      intro acc
      simp only [List.foldl_cons, ih, List.flatten_cons, List.filter_append,
                 List.append_assoc]

/-- C7 counterexample (claim as stated is false): with `includeDeleted` unset
    everywhere and the manager's merge strategy OverwriteChanges, the claim's
    filter ("or the effective merge strategy would overwrite local deletions
    anyway") keeps the Deleted entity, while `executeQueryLocallyCore`
    excludes it — the code never consults the merge strategy (src 851). -/
theorem localQuery_mergeStrategy_not_consulted :
    (executeQueryLocallyCore Breeze.Instances.thFlat Breeze.Instances.emQ
        Breeze.Instances.qPlain).results = [] ∧
    claimedLocalQueryResults Breeze.Instances.thFlat Breeze.Instances.emQ
        Breeze.Instances.qPlain = [Breeze.Instances.eDel] ∧
    ([] : List EntityQ) ≠ [Breeze.Instances.eDel] := by
  refine ⟨rfl, rfl, by simp⟩

/-- C7 (amended): `executeQueryLocally` evaluates entirely over the cached
    EntityGroups of the target type and all its subtypes and applies its
    stages in order — the filter (excluding Deleted entities unless the
    resolved options include deleted; the merge strategy is not consulted),
    then the order-by comparator, the skip count, the take count, and the
    optional projection — and performs no network access and no cache
    mutation: every existing group is preserved and any group it creates for
    a not-yet-seen type is empty. -/
theorem executeQueryLocally_pipeline (th : TypeHierarchy) (em : ManagerQ) (q : LocalQuery) :
    (executeQueryLocallyCore th em q).results = amendedLocalQueryResults th em q ∧
    (∀ (α : Type) (selectFn : EntityQ → α),
      executeQueryLocallyProjected th em q selectFn =
        (amendedLocalQueryResults th em q).map selectFn) ∧
    (∀ t1 g, alookup t1 em.groupMap = some g →
      alookup t1 (executeQueryLocallyCore th em q).groupMap = some g) ∧
    (∀ t1, (alookup t1 (executeQueryLocallyCore th em q).groupMap).getD [] =
      (alookup t1 em.groupMap).getD []) := by
  obtain ⟨h1, h2, h3⟩ := findOrCreateEntityGroups_spec (th.selfAndSubtypes q.fromTypeName)
    em.groupMap
  have hres : (executeQueryLocallyCore th em q).results = amendedLocalQueryResults th em q := by
    unfold executeQueryLocallyCore amendedLocalQueryResults
    simp only [h1, foldl_append_filter, List.nil_append]
  refine ⟨hres, ?_, ?_, ?_⟩
  · intro α selectFn
    unfold executeQueryLocallyProjected
    rw [hres]
  · intro t1 g h
    exact h3 t1 g h
  · intro t1
    exact h2 t1

end Breeze.QueryModel

namespace Breeze.AttachModel

/-- C9: evaluation of `detachEntity` at the failing input.  Entity 7 of
    `wNeverAttached` was created but never attached: it has an aspect, is
    Detached, and references no manager.  The source's own doc comment
    (src 653: "This will return false if the entity is already detached or
    was never attached") and the claim say `detachEntity` returns false
    here, but the code throws at src 663-665 because the aspect's manager
    reference is not this manager; only an entity with NO aspect reaches the
    return-false branch (shown on entity 1 of `wA`, which was made via `new`
    and has no aspect). -/
theorem detachEntity_throws_on_never_attached :
    detachEntity Breeze.Instances.wNeverAttached 7
      = Except.error "This entity does not belong to this EntityManager." ∧
    detachEntity Breeze.Instances.wA 1 = Except.ok (false, Breeze.Instances.wA) :=
  ⟨rfl, rfl⟩

end Breeze.AttachModel

namespace Breeze.ImportModel

theorem buildTempKeyMap_covers (ks : List Nat) : ∀ (gen : KeyGen) (k : Nat), k ∈ ks →
    (alookup k (buildTempKeyMap gen ks).1).isSome = true := by
  induction ks with
  | nil => intro gen k h; simp at h
  | cons k0 rest ih =>
      intro gen k h
      unfold buildTempKeyMap
      simp only [generateTempKeyValue]
      unfold alookup
      by_cases hk : k0 = k
      · rw [if_pos hk]
        rfl
      · rw [if_neg hk]
        rcases List.mem_cons.mp h with h1 | h1
        · exact absurd h1.symm hk
        · exact ih { nextId := gen.nextId + 1 } k h1

theorem buildTempKeyMap_lookup_range (ks : List Nat) : ∀ (gen : KeyGen) (k v : Nat),
    alookup k (buildTempKeyMap gen ks).1 = some v →
    gen.nextId ≤ v ∧ v < gen.nextId + ks.length := by
  induction ks with
  | nil => intro gen k v h; simp [buildTempKeyMap, alookup] at h
  | cons k0 rest ih =>
      intro gen k v h
      unfold buildTempKeyMap at h
      simp only [generateTempKeyValue] at h
      unfold alookup at h
      by_cases hk : k0 = k
      · rw [if_pos hk] at h
        simp only [Option.some.injEq] at h
        subst h
        simp
      · rw [if_neg hk] at h
        have hr := ih { nextId := gen.nextId + 1 } k v h
        have hx : ({ nextId := gen.nextId + 1 } : KeyGen).nextId = gen.nextId + 1 := rfl
        rw [hx] at hr
        simp only [List.length_cons]
        omega

theorem fixTempFks_spec (meta : TypeMeta) (tkm : List (Nat × Nat)) :
    ∀ (nps : List String) (values v2 : List (String × Nat)),
      List.Nodup (nps.filterMap (fun np => alookup np meta.navFkMap)) →
      fixTempFks meta tkm nps values = Except.ok v2 →
      (∀ name, (∀ np ∈ nps, alookup np meta.navFkMap ≠ some name) →
        alookup name v2 = alookup name values) ∧
      (∀ np fk, np ∈ nps → alookup np meta.navFkMap = some fk →
        ∃ nf, getMappedKey tkm ((alookup fk values).getD 0) = some nf ∧
              alookup fk v2 = some nf) := by
  intro nps
  induction nps with
  | nil =>
      intro values v2 hnd h
      simp only [fixTempFks, Except.ok.injEq] at h
      subst h
      exact ⟨fun name h1 => rfl, fun np fk h1 => absurd h1 (List.not_mem_nil np)⟩
  | cons np0 rest ih =>
      intro values v2 hnd h
      unfold fixTempFks at h
      cases hnav : alookup np0 meta.navFkMap with
      | none =>
          rw [hnav] at h
          exact Except.noConfusion h
      | some f0 =>
          cases hmap : getMappedKey tkm ((alookup f0 values).getD 0) with
          | none =>
              simp only [hnav, hmap] at h
              exact Except.noConfusion h
          | some nf0 =>
              simp only [hnav, hmap] at h
              have hnd2 : (np0 :: rest).filterMap (fun np => alookup np meta.navFkMap) =
                  f0 :: rest.filterMap (fun np => alookup np meta.navFkMap) := by
                simp [List.filterMap_cons, hnav]
              rw [hnd2] at hnd
              have hf0notin := (List.nodup_cons.mp hnd).1
              have hndrest := (List.nodup_cons.mp hnd).2
              obtain ⟨iha, ihb⟩ := ih (aupdate f0 nf0 values) v2 hndrest h
              have hf0rest : ∀ np1 ∈ rest, alookup np1 meta.navFkMap ≠ some f0 := by
                intro np1 h1 hcontra
                exact hf0notin (List.mem_filterMap.mpr ⟨np1, h1, hcontra⟩)
              refine ⟨?_, ?_⟩
              · intro name h1
                have hne : f0 ≠ name := by
                  intro hc
                  exact h1 np0 (List.mem_cons_self np0 rest) (hc ▸ hnav)
                rw [iha name (fun np1 h2 => h1 np1 (List.mem_cons_of_mem np0 h2)),
                    alookup_aupdate_ne nf0 values (Ne.symm hne)]
              · intro np fk hmem hfk
                by_cases hfkf0 : fk = f0
                · subst hfkf0
                  refine ⟨nf0, hmap, ?_⟩
                  rw [iha fk hf0rest, alookup_aupdate_self]
                · have hnprest : np ∈ rest := by
                    rcases List.mem_cons.mp hmem with h1 | h1
                    · subst h1
                      rw [hnav] at hfk
                      simp only [Option.some.injEq] at hfk
                      exact absurd hfk.symm hfkf0
                    · exact h1
                  obtain ⟨nf, hnf1, hnf2⟩ := ihb np fk hnprest hfk
                  refine ⟨nf, ?_, hnf2⟩
                  rwa [alookup_aupdate_ne nf0 values hfkf0] at hnf1

/-- C8: for every import whose bundle holds temp keys, the translation table
    of `importEntities` is total on the imported temp keys and each entry is
    re-minted through the destination manager's own key generator — under the
    generator's freshness (every imported temp key value and every key value
    in use in the destination is below the generator's counter) no minted
    value reuses an imported temp key value or an in-use value verbatim; the
    table rewrites the primary key of each newly attached Added entity, and
    every within-bundle foreign key named by `tempNavPropNames` is rewritten
    through the same table. -/
theorem importTempKeys_reminted (gen : KeyGen) (ks usedKeys : List Nat)
    (meta : TypeMeta) (g : List CachedEntity) (raw : RawEntity) (ms : MergeStrategy)
    (nk : Nat) (v2 : List (String × Nat))
    (hks : ∀ k ∈ ks, k < gen.nextId)
    (hused : ∀ u ∈ usedKeys, u < gen.nextId)
    (hadded : raw.entityState = EntityState.Added)
    (hmap : getMappedKey (buildTempKeyMap gen ks).1 (keyOf meta raw.values) = some nk)
    (hnodup : List.Nodup (raw.tempNavPropNames.filterMap
      (fun np => alookup np meta.navFkMap)))
    (hkeyfk : ∀ np ∈ raw.tempNavPropNames,
      alookup np meta.navFkMap ≠ some meta.keyPropName)
    (hfix : fixTempFks meta (buildTempKeyMap gen ks).1 raw.tempNavPropNames
        (aupdate meta.keyPropName nk raw.values) = Except.ok v2) :
    (∀ k ∈ ks, (alookup k (buildTempKeyMap gen ks).1).isSome = true) ∧
    (∀ k v, alookup k (buildTempKeyMap gen ks).1 = some v → v ∉ ks ∧ v ∉ usedKeys) ∧
    importEntityGroupStep meta
        { mergeStrategy := ms, tempKeyMap := (buildTempKeyMap gen ks).1 } g raw
      = Except.ok (g ++ [{ values := v2, entityState := raw.entityState,
                           hasTempKey := true }],
                   ImportAction.attachedOnImport) ∧
    keyOf meta v2 = nk ∧
    (∀ np fk, np ∈ raw.tempNavPropNames → alookup np meta.navFkMap = some fk →
      ∃ nf, getMappedKey (buildTempKeyMap gen ks).1
              ((alookup fk (aupdate meta.keyPropName nk raw.values)).getD 0) = some nf ∧
            alookup fk v2 = some nf) := by
  obtain ⟨hspecA, hspecB⟩ := fixTempFks_spec meta (buildTempKeyMap gen ks).1
    raw.tempNavPropNames (aupdate meta.keyPropName nk raw.values) v2 hnodup hfix
  refine ⟨buildTempKeyMap_covers ks gen, ?_, ?_, ?_, hspecB⟩
  · intro k v h
    obtain ⟨h1, h2⟩ := buildTempKeyMap_lookup_range ks gen k v h
    constructor
    · intro hkv
      have := hks v hkv
      omega
    · intro hkv
      have := hused v hkv
      omega
  · unfold importEntityGroupStep
    rw [hadded]
    simp only [EntityState.isDetached, EntityState.isAdded, Bool.false_eq_true, if_false,
               if_true, hmap, Option.isSome_some, hfix]
  · unfold keyOf
    rw [hspecA meta.keyPropName hkeyfk, alookup_aupdate_self]
    rfl

/-- Witness for C8: importing the bundle with temp keys {3, 8} into a
    destination whose generator counter is 10 re-mints them as {10, 11}; the
    attached Added entity takes primary key 10 and its within-bundle foreign
    key 8 becomes 11. -/
theorem importTempKeys_reminted_witness :
    importEntityGroupStep Breeze.Instances.metaI
        { mergeStrategy := MergeStrategy.PreserveChanges,
          tempKeyMap := (buildTempKeyMap { nextId := 10 } [3, 8]).1 }
        [] Breeze.Instances.rawTempAdded
      = Except.ok ([{ values := [("id", 10), ("parentId", 11)],
                      entityState := EntityState.Added, hasTempKey := true }],
                   ImportAction.attachedOnImport) ∧
    keyOf Breeze.Instances.metaI [("id", 10), ("parentId", 11)] = 10 := by
  have h := importTempKeys_reminted { nextId := 10 } [3, 8] [4] Breeze.Instances.metaI []
      Breeze.Instances.rawTempAdded MergeStrategy.PreserveChanges 10
      [("id", 10), ("parentId", 11)] (by decide) (by decide) rfl rfl
      (by decide) (by decide) rfl
  have h3 := h.2.2.1
  have h4 := h.2.2.2.1
  constructor
  · rw [h3]
    rfl
  · exact h4

end Breeze.ImportModel

namespace Breeze.AttachModel

open Breeze

theorem findCollision_mem (w : World) (k : Option Nat) (tid : Nat) (t : Entity)
    (h : findCollision w k = some (tid, t)) :
    alookup tid w.heap = some t ∧ (t.keyValue == k) = true := by
  unfold findCollision at h
  have hmem := List.mem_of_find?_eq_some h
  have hpred := List.find?_some h
  simp only [List.mem_filterMap] at hmem
  obtain ⟨i, hi, hopt⟩ := hmem
  cases hx : alookup i w.heap with
  | none =>
      rw [hx] at hopt
      exact Option.noConfusion hopt
  | some e =>
      rw [hx] at hopt
      simp only [Option.map_some', Option.some.injEq, Prod.mk.injEq] at hopt
      obtain ⟨hi2, he⟩ := hopt
      subst hi2
      subst he
      exact ⟨hx, hpred⟩

theorem findCollision_list_aupdate (k : Option Nat) (tid : Nat) (t t1 : Entity)
    (hkey : t1.keyValue = t.keyValue) :
    ∀ (group : List Nat) (heap : List (Nat × Entity)),
      alookup tid heap = some t →
      (group.filterMap (fun i => (alookup i heap).map (fun e => (i, e)))).find?
          (fun p => p.2.keyValue == k) = some (tid, t) →
      (group.filterMap
          (fun i => (alookup i (aupdate tid t1 heap)).map (fun e => (i, e)))).find?
          (fun p => p.2.keyValue == k) = some (tid, t1) := by
  have hgen : ∀ (group : List Nat) (heap : List (Nat × Entity)),
      alookup tid heap = some t →
      (t.keyValue == k) = true →
      (group.filterMap (fun i => (alookup i heap).map (fun e => (i, e)))).find?
          (fun p => p.2.keyValue == k) = some (tid, t) →
      (group.filterMap
          (fun i => (alookup i (aupdate tid t1 heap)).map (fun e => (i, e)))).find?
          (fun p => p.2.keyValue == k) = some (tid, t1) := by
    intro group
    induction group with
    | nil =>
        intro heap hlook hpt h
        simp [List.filterMap_nil, List.find?_nil] at h
    | cons g rest ih =>
        intro heap hlook hpt h
        have hpt1 : (t1.keyValue == k) = true := by rw [hkey]; exact hpt
        by_cases hgt : g = tid
        · subst hgt
          rw [List.filterMap_cons] at h ⊢
          rw [hlook] at h
          rw [alookup_aupdate_self]
          simp only [Option.map_some'] at h ⊢
          simp only [List.find?, hpt, hpt1] at h ⊢
        · rw [List.filterMap_cons] at h ⊢
          rw [alookup_aupdate_ne t1 heap hgt]
          cases hg : alookup g heap with
          | none =>
              rw [hg] at h
              simp only [Option.map_none'] at h ⊢
              exact ih heap hlook hpt h
          | some e =>
              rw [hg] at h
              simp only [Option.map_some'] at h ⊢
              cases hp : (e.keyValue == k) with
              | true =>
                  simp only [List.find?, hp] at h
                  simp only [Option.some.injEq, Prod.mk.injEq] at h
                  exact absurd h.1 hgt
              | false =>
                  simp only [List.find?, hp] at h ⊢
                  exact ih heap hlook hpt h
  intro group heap hlook h
  have hpt : (t.keyValue == k) = true := by
    have h2 := List.find?_some h
    simpa using h2
  exact hgen group heap hlook hpt h

theorem findCollision_aupdate (w : World) (k : Option Nat) (tid : Nat) (t t1 : Entity)
    (hfc : findCollision w k = some (tid, t))
    (hkey : t1.keyValue = t.keyValue) :
    findCollision { w with heap := aupdate tid t1 w.heap } k = some (tid, t1) := by
  have hlook := (findCollision_mem w k tid t hfc).1
  unfold findCollision at hfc ⊢
  exact findCollision_list_aupdate k tid t t1 hkey w.mgr.group w.heap hlook hfc

end Breeze.AttachModel

namespace Breeze.AttachModel

open Breeze

theorem attachEntity_managed (w : World) (eid : Nat) (e : Entity) (a : Aspect)
    (s : EntityState) (ms : MergeStrategy)
    (hl : alookup eid w.heap = some e)
    (hst : e.storeId = w.mgr.storeId)
    (ha : e.aspect = some a)
    (hip : a.inProcessEntity = none)
    (hm : a.entityManager = some w.mgr.mid) :
    attachEntity w eid s ms = Except.ok (eid, w) := by
  simp [attachEntity, hl, hst, ha, hip, hm]

theorem attachEntity_unmanaged (w : World) (eid : Nat) (e : Entity) (a : Aspect)
    (s : EntityState) (ms : MergeStrategy)
    (hl : alookup eid w.heap = some e)
    (hst : e.storeId = w.mgr.storeId)
    (ha : e.aspect = some a)
    (hip : a.inProcessEntity = none)
    (hm : a.entityManager = none) :
    attachEntity w eid s ms = attachCore w eid e s ms := by
  simp [attachEntity, hl, hst, ha, hip, hm]

theorem checkEntityKey_someKey (w : World) (eid : Nat) (e : Entity)
    (hk : e.keyValue.isSome = true) :
    checkEntityKey w eid e = Except.ok (w, e) := by
  unfold checkEntityKey
  cases hkv : e.keyValue with
  | none => rw [hkv] at hk; exact absurd hk (by simp)
  | some v => rfl

theorem attachCore_someKey (w : World) (eid : Nat) (e : Entity) (s : EntityState)
    (ms : MergeStrategy) (hk : s.isAdded = true → e.keyValue.isSome = true) :
    attachCore w eid e s ms = groupAttach w eid e s ms := by
  unfold attachCore
  cases hadd : s.isAdded with
  | false => simp
  | true => simp [checkEntityKey_someKey w eid e (hk hadd)]

end Breeze.AttachModel

namespace Breeze.AttachModel

open Breeze

theorem overwriteTarget_self (w : World) (tid : Nat) (t1 eArg : Entity) (s : EntityState)
    (a1 : Aspect)
    (hv : t1.values = eArg.values)
    (ha1 : t1.aspect = some a1)
    (hs1 : a1.entityState = s)
    (hlook : alookup tid w.heap = some t1) :
    overwriteTarget w tid t1 eArg s = w := by
  have hT2 : ({ t1 with values := eArg.values, aspect := some { (t1.aspect.getD newAspect) with entityState := s } } : Entity) = t1 := by
    obtain ⟨Ts, Tk, Tv, Ta⟩ := t1
    simp only at hv ha1
    subst hv
    subst ha1
    simp only [Option.getD_some]
    obtain ⟨am, ai, ae, ah⟩ := a1
    simp only at hs1
    subst hs1
    rfl
  have hzeta : overwriteTarget w tid t1 eArg s = { w with heap := aupdate tid ({ t1 with values := eArg.values, aspect := some { (t1.aspect.getD newAspect) with entityState := s } }) w.heap } := rfl
  rw [hzeta, hT2, aupdate_self hlook]

theorem groupAttach_idem (w2 : World) (eid : Nat) (e2 : Entity) (a2 : Aspect)
    (s : EntityState) (ms : MergeStrategy) (r : Nat) (w1 : World)
    (hl : alookup eid w2.heap = some e2)
    (hst : e2.storeId = w2.mgr.storeId)
    (ha : e2.aspect = some a2)
    (hip : a2.inProcessEntity = none)
    (hm : a2.entityManager = none)
    (hkey : s.isAdded = true → e2.keyValue.isSome = true)
    (h1 : groupAttach w2 eid e2 s ms = Except.ok (r, w1)) :
    attachEntity w1 eid s ms = Except.ok (r, w1) := by
  unfold groupAttach at h1
  cases hfc : findCollision w2 e2.keyValue with
  | none =>
      rw [hfc] at h1
      simp only [Except.ok.injEq, Prod.mk.injEq] at h1
      obtain ⟨hr, hw⟩ := h1
      subst hr
      subst hw
      refine attachEntity_managed _ eid { e2 with aspect := some { (e2.aspect.getD newAspect) with entityManager := some w2.mgr.mid, entityState := s } } { (e2.aspect.getD newAspect) with entityManager := some w2.mgr.mid, entityState := s } s ms ?_ ?_ rfl ?_ rfl
      · exact alookup_aupdate_self eid _ w2.heap
      · exact hst
      · simp [ha, hip]
  | some pr =>
      obtain ⟨tid, t⟩ := pr
      rw [hfc] at h1
      have hmem := findCollision_mem w2 e2.keyValue tid t hfc
      have hlook := hmem.1
      have hkv : t.keyValue = e2.keyValue := by simpa using hmem.2
      cases ms with
      | Disallowed => exact Except.noConfusion h1
      | SkipMerge =>
          simp only [Except.ok.injEq, Prod.mk.injEq] at h1
          obtain ⟨hr, hw⟩ := h1
          subst hr
          subst hw
          rw [attachEntity_unmanaged w2 eid e2 a2 s MergeStrategy.SkipMerge hl hst ha hip hm,
              attachCore_someKey w2 eid e2 s MergeStrategy.SkipMerge hkey]
          unfold groupAttach
          rw [hfc]
      | OverwriteChanges =>
          simp only [Except.ok.injEq, Prod.mk.injEq] at h1
          obtain ⟨hr, hw⟩ := h1
          subst hr
          subst hw
          simp only [overwriteTarget]
          generalize hT1 : ({ t with values := e2.values, aspect := some { (t.aspect.getD newAspect) with entityState := s } } : Entity) = T1
          have hT1kt : T1.keyValue = t.keyValue := by rw [← hT1]
          have hT1k : T1.keyValue = e2.keyValue := by rw [hT1kt]; exact hkv
          have hT1v : T1.values = e2.values := by rw [← hT1]
          have hT1a : T1.aspect = some { (t.aspect.getD newAspect) with entityState := s } := by rw [← hT1]
          have hfc3 : findCollision { w2 with heap := aupdate tid T1 w2.heap } e2.keyValue = some (tid, T1) :=
            findCollision_aupdate w2 e2.keyValue tid t T1 hfc hT1kt
          have hlook3 : alookup tid ({ w2 with heap := aupdate tid T1 w2.heap } : World).heap = some T1 :=
            alookup_aupdate_self tid T1 w2.heap
          by_cases heid : eid = tid
          · have het : t = e2 := by
              rw [← heid] at hlook
              rw [hl] at hlook
              simpa using hlook.symm
            rw [attachEntity_unmanaged { heap := aupdate tid T1 w2.heap, mgr := w2.mgr } eid T1 { (t.aspect.getD newAspect) with entityState := s } s MergeStrategy.OverwriteChanges (by rw [heid]; exact hlook3) (by rw [← hT1]; show t.storeId = w2.mgr.storeId; rw [het]; exact hst) hT1a (by simp [het, ha, hip]) (by simp [het, ha, hm]),
                attachCore_someKey _ eid T1 s MergeStrategy.OverwriteChanges (fun hx => by rw [hT1k]; exact hkey hx)]
            unfold groupAttach
            rw [hT1k]
            simp only [hfc3]
            rw [overwriteTarget_self _ tid T1 T1 s { (t.aspect.getD newAspect) with entityState := s } rfl hT1a rfl hlook3]
          · rw [attachEntity_unmanaged { heap := aupdate tid T1 w2.heap, mgr := w2.mgr } eid e2 a2 s MergeStrategy.OverwriteChanges (by show alookup eid (aupdate tid T1 w2.heap) = some e2; rw [alookup_aupdate_ne T1 w2.heap heid]; exact hl) hst ha hip hm,
                attachCore_someKey _ eid e2 s MergeStrategy.OverwriteChanges hkey]
            unfold groupAttach
            simp only [hfc3]
            rw [overwriteTarget_self _ tid T1 e2 s { (t.aspect.getD newAspect) with entityState := s } hT1v hT1a rfl hlook3]
      | PreserveChanges =>
          by_cases hunch : (t.aspect.getD newAspect).entityState.isUnchanged = true
          · simp only [if_pos hunch, Except.ok.injEq, Prod.mk.injEq] at h1
            obtain ⟨hr, hw⟩ := h1
            subst hr
            subst hw
            simp only [overwriteTarget]
            generalize hT1 : ({ t with values := e2.values, aspect := some { (t.aspect.getD newAspect) with entityState := s } } : Entity) = T1
            have hT1kt : T1.keyValue = t.keyValue := by rw [← hT1]
            have hT1k : T1.keyValue = e2.keyValue := by rw [hT1kt]; exact hkv
            have hT1v : T1.values = e2.values := by rw [← hT1]
            have hT1a : T1.aspect = some { (t.aspect.getD newAspect) with entityState := s } := by rw [← hT1]
            have hfc3 : findCollision { w2 with heap := aupdate tid T1 w2.heap } e2.keyValue = some (tid, T1) :=
              findCollision_aupdate w2 e2.keyValue tid t T1 hfc hT1kt
            have hlook3 : alookup tid ({ w2 with heap := aupdate tid T1 w2.heap } : World).heap = some T1 :=
              alookup_aupdate_self tid T1 w2.heap
            by_cases heid : eid = tid
            · have het : t = e2 := by
                rw [← heid] at hlook
                rw [hl] at hlook
                simpa using hlook.symm
              rw [attachEntity_unmanaged { heap := aupdate tid T1 w2.heap, mgr := w2.mgr } eid T1 { (t.aspect.getD newAspect) with entityState := s } s MergeStrategy.PreserveChanges (by rw [heid]; exact hlook3) (by rw [← hT1]; show t.storeId = w2.mgr.storeId; rw [het]; exact hst) hT1a (by simp [het, ha, hip]) (by simp [het, ha, hm]),
                  attachCore_someKey _ eid T1 s MergeStrategy.PreserveChanges (fun hx => by rw [hT1k]; exact hkey hx)]
              unfold groupAttach
              rw [hT1k]
              simp only [hfc3]
              have hcond : (T1.aspect.getD newAspect).entityState.isUnchanged = s.isUnchanged := by rw [hT1a]; rfl
              by_cases hs2 : s.isUnchanged = true
              · rw [if_pos (hcond.trans hs2)]
                rw [overwriteTarget_self _ tid T1 T1 s { (t.aspect.getD newAspect) with entityState := s } rfl hT1a rfl hlook3]
              · rw [if_neg (by rw [hcond]; exact hs2)]
            · rw [attachEntity_unmanaged { heap := aupdate tid T1 w2.heap, mgr := w2.mgr } eid e2 a2 s MergeStrategy.PreserveChanges (by show alookup eid (aupdate tid T1 w2.heap) = some e2; rw [alookup_aupdate_ne T1 w2.heap heid]; exact hl) hst ha hip hm,
                  attachCore_someKey _ eid e2 s MergeStrategy.PreserveChanges hkey]
              unfold groupAttach
              simp only [hfc3]
              have hcond : (T1.aspect.getD newAspect).entityState.isUnchanged = s.isUnchanged := by rw [hT1a]; rfl
              by_cases hs2 : s.isUnchanged = true
              · rw [if_pos (hcond.trans hs2)]
                rw [overwriteTarget_self _ tid T1 e2 s { (t.aspect.getD newAspect) with entityState := s } hT1v hT1a rfl hlook3]
              · rw [if_neg (by rw [hcond]; exact hs2)]
          · simp only [if_neg hunch, Except.ok.injEq, Prod.mk.injEq] at h1
            obtain ⟨hr, hw⟩ := h1
            subst hr
            subst hw
            rw [attachEntity_unmanaged w2 eid e2 a2 s MergeStrategy.PreserveChanges hl hst ha hip hm,
                attachCore_someKey w2 eid e2 s MergeStrategy.PreserveChanges hkey]
            unfold groupAttach
            simp only [hfc]
            rw [if_neg hunch]

end Breeze.AttachModel

namespace Breeze.AttachModel

open Breeze

theorem attachCore_idem (w2 : World) (eid : Nat) (e2 : Entity) (a2 : Aspect)
    (s : EntityState) (ms : MergeStrategy) (r : Nat) (w1 : World)
    (hl : alookup eid w2.heap = some e2)
    (hst : e2.storeId = w2.mgr.storeId)
    (ha : e2.aspect = some a2)
    (hip : a2.inProcessEntity = none)
    (hm : a2.entityManager = none)
    (h1 : attachCore w2 eid e2 s ms = Except.ok (r, w1)) :
    attachEntity w1 eid s ms = Except.ok (r, w1) := by
  unfold attachCore at h1
  cases hadd : s.isAdded with
  | false =>
      rw [if_neg (by rw [hadd]; exact Bool.false_ne_true)] at h1
      exact groupAttach_idem w2 eid e2 a2 s ms r w1 hl hst ha hip hm
        (fun hx => by rw [hadd] at hx; exact absurd hx (by simp)) h1
  | true =>
      rw [if_pos hadd] at h1
      cases hkv : e2.keyValue with
      | some v =>
          rw [checkEntityKey_someKey w2 eid e2 (by rw [hkv]; rfl)] at h1
          exact groupAttach_idem w2 eid e2 a2 s ms r w1 hl hst ha hip hm
            (fun hx => by rw [hkv]; rfl) h1
      | none =>
          unfold checkEntityKey at h1
          simp only [hkv] at h1
          by_cases hak : w2.mgr.autoKey = true
          · rw [if_pos hak] at h1
            have h2 : groupAttach { heap := aupdate eid ({ e2 with keyValue := some w2.mgr.nextTempId, aspect := e2.aspect.map (fun a => { a with hasTempKey := true }) } : Entity) w2.heap, mgr := { w2.mgr with nextTempId := w2.mgr.nextTempId + 1 } } eid ({ e2 with keyValue := some w2.mgr.nextTempId, aspect := e2.aspect.map (fun a => { a with hasTempKey := true }) } : Entity) s ms = Except.ok (r, w1) := h1
            exact groupAttach_idem { heap := aupdate eid ({ e2 with keyValue := some w2.mgr.nextTempId, aspect := e2.aspect.map (fun a => { a with hasTempKey := true }) } : Entity) w2.heap, mgr := { w2.mgr with nextTempId := w2.mgr.nextTempId + 1 } } eid ({ e2 with keyValue := some w2.mgr.nextTempId, aspect := e2.aspect.map (fun a => { a with hasTempKey := true }) } : Entity) ({ a2 with hasTempKey := true } : Aspect) s ms r w1
              (alookup_aupdate_self eid _ w2.heap) hst (by rw [ha]; rfl) hip hm
              (fun hx => rfl) h2
          · rw [if_neg hak] at h1
            exact Except.noConfusion h1

theorem attachEntity_idem (w : World) (eid : Nat) (s : EntityState) (ms : MergeStrategy)
    (r : Nat) (w1 : World)
    (h : attachEntity w eid s ms = Except.ok (r, w1)) :
    attachEntity w1 eid s ms = Except.ok (r, w1) := by
  unfold attachEntity at h
  cases hl : alookup eid w.heap with
  | none => rw [hl] at h; exact Except.noConfusion h
  | some e0 =>
      simp only [hl] at h
      by_cases hst : e0.storeId = w.mgr.storeId
      · rw [if_neg (not_not_intro hst)] at h
        cases ha : e0.aspect with
        | some a =>
            simp only [ha] at h
            cases hip : a.inProcessEntity with
            | some r0 =>
                simp only [hip, Except.ok.injEq, Prod.mk.injEq] at h
                obtain ⟨hr, hw⟩ := h
                subst hr
                subst hw
                simp [attachEntity, hl, hst, ha, hip]
            | none =>
                simp only [hip] at h
                cases hem : a.entityManager with
                | some m1 =>
                    simp only [hem] at h
                    by_cases hm1 : m1 = w.mgr.mid
                    · rw [if_pos hm1] at h
                      simp only [Except.ok.injEq, Prod.mk.injEq] at h
                      obtain ⟨hr, hw⟩ := h
                      subst hr
                      subst hw
                      exact attachEntity_managed w eid e0 a s ms hl hst ha hip
                        (by rw [hem, hm1])
                    · rw [if_neg hm1] at h
                      exact Except.noConfusion h
                | none =>
                    simp only [hem] at h
                    exact attachCore_idem w eid e0 a s ms r w1 hl hst ha hip hem h
        | none =>
            simp only [ha] at h
            have h2 : attachCore { heap := aupdate eid ({ e0 with aspect := some newAspect } : Entity) w.heap, mgr := w.mgr } eid ({ e0 with aspect := some newAspect } : Entity) s ms = Except.ok (r, w1) := h
            exact attachCore_idem { heap := aupdate eid ({ e0 with aspect := some newAspect } : Entity) w.heap, mgr := w.mgr } eid ({ e0 with aspect := some newAspect } : Entity) newAspect s ms r w1
              (alookup_aupdate_self eid _ w.heap) hst rfl rfl rfl h2
      · rw [if_pos hst] at h
        exact Except.noConfusion h

end Breeze.AttachModel

namespace Breeze.AttachModel

open Breeze

/-- C2: `attachEntity` is idempotent per manager.  When a call on cache `w`
    succeeds with entity reference `r` and cache `w1`, an identical second
    call on `w1` returns the very same reference and leaves the cache
    untouched (src 587-640 with `checkEntityKey` src 2031-2049 and the
    group-level attach of spec 4.1: the second call either hits the
    no-op early return for an entity of this manager, src 610-614, or
    re-resolves the same collision to the identical cached instance); and
    attaching an entity whose aspect already references a different manager
    throws "This entity already belongs to another EntityManager"
    (src 607-609). -/
theorem attachEntity_idempotent :
    (∀ (w : World) (eid : Nat) (s : EntityState) (ms : MergeStrategy) (r : Nat) (w1 : World),
      attachEntity w eid s ms = Except.ok (r, w1) →
      attachEntity w1 eid s ms = Except.ok (r, w1)) ∧
    (∀ (w : World) (eid : Nat) (e : Entity) (a : Aspect) (s : EntityState)
       (ms : MergeStrategy) (m1 : Nat),
      alookup eid w.heap = some e → e.storeId = w.mgr.storeId → e.aspect = some a →
      a.inProcessEntity = none → a.entityManager = some m1 → m1 ≠ w.mgr.mid →
      attachEntity w eid s ms
        = Except.error "This entity already belongs to another EntityManager") := by
  constructor
  · intro w eid s ms r w1 h
    exact attachEntity_idem w eid s ms r w1 h
  · intro w eid e a s ms m1 hl hst ha hip hem hm1
    simp [attachEntity, hl, hst, ha, hip, hem, hm1]

/-- Witness for C2: attaching entity 1 of `wA` a second time (after the
    first call produced `wAx`) returns the same reference and cache; and
    attaching entity 2 of `wCross`, owned by manager 99, to manager 0
    throws. -/
theorem attachEntity_idempotent_witness :
    attachEntity Breeze.Instances.wAx 1 EntityState.Unchanged MergeStrategy.Disallowed
      = Except.ok (1, Breeze.Instances.wAx) ∧
    attachEntity Breeze.Instances.wCross 2 EntityState.Unchanged MergeStrategy.Disallowed
      = Except.error "This entity already belongs to another EntityManager" :=
  ⟨attachEntity_idempotent.1 Breeze.Instances.wA 1 EntityState.Unchanged
     MergeStrategy.Disallowed 1 Breeze.Instances.wAx (by rfl),
   attachEntity_idempotent.2 Breeze.Instances.wCross 2 Breeze.Instances.eCross
     { entityManager := some 99, inProcessEntity := none,
       entityState := EntityState.Unchanged, hasTempKey := false }
     EntityState.Unchanged MergeStrategy.Disallowed 99
     (by rfl) (by rfl) (by rfl) (by rfl) (by rfl) (by decide)⟩

end Breeze.AttachModel
